import Mathlib

/-!
Verification of the async-art subgraph event handlers.

This file shallowly embeds the event-handler set of `src/mapping` (the variant
that maintains the historical lists `pastBids` / `pastOwners` / `allTransfers` /
`allSales` and invokes the linkage reconciliation at the end of each mutating
handler, which the design notes identify as the authoritative variant).

Modelling choices:
* `BigInt` values (token ids, amounts, counts, gas) are embedded as `Nat`; all
  quantities handled by the mappings are non-negative and no wrap-around
  arithmetic occurs in the handlers.
* The entity store is a per-entity-type association list from string ids to
  records with load / upsert primitives (`Store.load` / `Store.save`), mirroring
  the graph store's load-by-id and save-by-id operations.
* `entity.save()` persists the record under its `id` field, as the graph store
  does; `load` on an absent id yields `none`.
* `log.critical` terminates the handler (the graph runtime aborts the mapping);
  it is modelled as an early return carrying a `critical` log entry, and a null
  dereference of a missing record is modelled the same way, since both stop the
  handler before any of its remaining writes land.
* Helper routines that live in `src/util` (absent from the repository snapshot)
  are modelled from the specification; each such definition carries a doc
  comment starting with `Modelled from the spec:`.
* Decimal rendering of numeric ids (`BigInt.toString`) is embedded as `natStr`,
  an explicit fuel-based decimal renderer, so that all key computations reduce
  by evaluation.
-/

namespace AsyncArt

/-- Decimal digit character for a single digit value. Values `≥ 9` all map to
`'9'`; the function is only applied to values `< 10`. -/
def digitChar (d : Nat) : Char :=
  if d = 0 then '0' else if d = 1 then '1' else if d = 2 then '2'
  else if d = 3 then '3' else if d = 4 then '4' else if d = 5 then '5'
  else if d = 6 then '6' else if d = 7 then '7' else if d = 8 then '8' else '9'

/-- Decimal digit list of `n`, most significant first, with explicit fuel so the
definition is structurally recursive. Any fuel above `n` yields the digits. -/
def natCharsGo : Nat → Nat → List Char
  | 0, _ => []
  | fuel + 1, n =>
    if n < 10 then [digitChar n]
    else natCharsGo fuel (n / 10) ++ [digitChar (n % 10)]

/-- Decimal string of a natural number; the embedding of `BigInt.toString()`. -/
def natStr (n : Nat) : String := String.mk (natCharsGo (n + 1) n)

/-- Severity levels of the graph-ts logger that the handlers use. -/
inductive LogLevel where
  | info
  | warning
  | critical
deriving Repr, DecidableEq

/-- One log line emitted by a handler: severity and message. -/
abbrev LogEntry := LogLevel × String

/-- Keyed entity store: an association list from string ids to records. -/
abbrev Store (α : Type) := List (String × α)

/-- Load a record by id; `none` when absent. -/
def Store.load {α : Type} : Store α → String → Option α
  | [], _ => none
  | (k, v) :: rest, key => if k = key then some v else Store.load rest key

/-- Remove every entry with the given id. -/
def Store.removeKey {α : Type} : Store α → String → Store α
  | [], _ => []
  | (k, v) :: rest, key =>
    if k = key then Store.removeKey rest key else (k, v) :: Store.removeKey rest key

/-- Upsert: store the record under `key`, replacing any previous record. -/
def Store.save {α : Type} (s : Store α) (key : String) (v : α) : Store α :=
  (key, v) :: s.removeKey key

/-- Load through a nullable foreign key (`Bid.load(token.currentBid)` where the
field may be null). -/
def loadOpt {α : Type} (s : Store α) : Option String → Option α
  | none => none
  | some k => s.load k

/-- GlobalState singleton entity. -/
structure GlobalState where
  latestMasterTokenId : Nat
  currentExpectedTokenSupply : Nat
  totalSaleAmount : Nat
  artistSecondSalePercentage : Nat
  platformAddress : String
deriving Repr, DecidableEq

/-- User entity: actor address plus append-only relationship lists. -/
structure User where
  id : String
  bids : List String
  buys : List String
  sells : List String
  ownedMasters : List String
  ownerControllers : List String
deriving Repr, DecidableEq

/-- Token entity (one record per master and per controller token). -/
structure Token where
  id : String
  owner : String
  currentBuyPrice : Nat
  currentBid : Option String
  permissionedAddress : Option String
  numberOfSales : Nat
  tokenDidHaveFirstSale : Bool
  isMaster : Bool
  platformFirstSalePercentage : Nat
  platformSecondSalePercentage : Nat
  lastSale : Option String
  lastTransfer : Option String
  pastBids : List String
  pastOwners : List String
  allTransfers : List String
  allSales : List String
deriving Repr, DecidableEq

/-- Bid entity. -/
structure Bid where
  id : String
  tokenDetails : String
  bidAmount : Nat
  bidder : String
  bidTimestamp : Nat
  bidActive : Bool
  bidAccepted : Bool
  bidWithdrawnTimestamp : Option Nat
deriving Repr, DecidableEq

/-- Sale entity. -/
structure Sale where
  id : String
  tokenDetails : String
  buyer : String
  seller : String
  salePrice : Nat
  saleTimestamp : Nat
  tokenSaleNumber : Nat
  isBidSale : Bool
  bidDetails : Option String
deriving Repr, DecidableEq

/-- TokenController entity (exactly one per controller token). The numeric
`tokenId` mirrors the token id encoded in the record's string id. -/
structure TokenController where
  id : String
  tokenId : Nat
  numberOfUpdates : Nat
  numRemainingUpdates : Nat
  averageUpdateCost : Nat
  lastUpdate : Option String
  allUpdates : List String
  associatedMasterToken : Option String
deriving Repr, DecidableEq

/-- TokenControlLever entity. -/
structure TokenControlLever where
  id : String
  previousValue : Nat
  currentValue : Nat
  numberOfUpdates : Nat
  latestUpdate : Option String
deriving Repr, DecidableEq

/-- LayerUpdate entity: one record per lever-update batch. -/
structure LayerUpdate where
  id : String
  updateNumber : Nat
  gasPrice : Nat
  gasUsed : Nat
  costInWei : Nat
  priorityTip : Nat
  layer : String
  leversUpdated : List String
deriving Repr, DecidableEq

/-- TokenTransfer entity: ownership-change audit record. -/
structure TokenTransfer where
  id : String
  tokenDetails : String
  «to» : String
  «from» : String
  timestamp : Nat
deriving Repr, DecidableEq

/-- The whole persisted state: the global singleton plus one store per entity
type. -/
structure State where
  globalState : Option GlobalState
  users : Store User
  tokens : Store Token
  bids : Store Bid
  sales : Store Sale
  controllers : Store TokenController
  levers : Store TokenControlLever
  layerUpdates : Store LayerUpdate
  transfers : Store TokenTransfer
deriving Repr, DecidableEq

/-- The empty initial state, before any event is processed. -/
def State.init : State :=
  { globalState := none, users := [], tokens := [], bids := [], sales := []
    controllers := [], levers := [], layerUpdates := [], transfers := [] }

/-- The read-only source-query capability plus static configuration the
handlers pull from the authoritative contract: the current permissioned
address per (token, actor), the initial global configuration, and the fixed
number of control levers created per controller token. -/
structure Source where
  permissionedAddress : Nat → String → Option String
  initialGlobalState : GlobalState
  leversPerChild : Nat

/-- Ambient transaction metadata delivered with every event. -/
structure EventMeta where
  timestamp : Nat
  blockNumber : Nat
  txHash : String
  gasPrice : Nat
  gasUsed : Nat
deriving Repr, DecidableEq

/-- Key of a Bid record: `tokenId.toString() + "-" + txHash`. -/
def bidKey (tokenId : Nat) (txHash : String) : String := natStr tokenId ++ "-" ++ txHash

/-- Key of a Sale record: `tokenId.toString() + "-" + saleNumber.toString()`. -/
def saleKey (tokenId n : Nat) : String := natStr tokenId ++ "-" ++ natStr n

/-- Key of a TokenController record: `tokenId.toString() + "-Controller"`. -/
def controllerKey (tokenId : Nat) : String := natStr tokenId ++ "-Controller"

/-- Key of a TokenControlLever record:
`tokenId.toString() + "-" + leverId.toString()`. -/
def leverKey (tokenId leverId : Nat) : String := natStr tokenId ++ "-" ++ natStr leverId

/-- Key of a LayerUpdate record:
`tokenId.toString() + "-" + updateNumber.toString()`. -/
def layerUpdateKey (tokenId n : Nat) : String := natStr tokenId ++ "-" ++ natStr n

/-- Key of a TokenTransfer record: `tokenId.toString() + "-" + txHash`. -/
def transferKey (tokenId : Nat) (txHash : String) : String := natStr tokenId ++ "-" ++ txHash

/-- Modelled from the spec: `getOrInitialiseGlobalState` lives in `src/util`,
which is absent from the snapshot. Per §4.1 it returns the singleton, creating
it from the authoritative source (and persisting it) when absent. -/
def getOrInitialiseGlobalState (O : Source) (s : State) : State × GlobalState :=
  match s.globalState with
  | some g => (s, g)
  | none => ({ s with globalState := some O.initialGlobalState }, O.initialGlobalState)

/-- Modelled from the spec: `refreshGlobalState` (in the absent `src/util`)
re-pulls the fee percentages and the platform address from the source
unconditionally and persists the singleton (§4.1). -/
def refreshGlobalState (O : Source) (s : State) : State :=
  let s1 := (getOrInitialiseGlobalState O s).1
  let g := (getOrInitialiseGlobalState O s).2
  let g1 := { g with
    artistSecondSalePercentage := O.initialGlobalState.artistSecondSalePercentage
    platformAddress := O.initialGlobalState.platformAddress }
  { s1 with globalState := some g1 }

/-- A fresh User record with empty relationship lists. -/
def emptyUser (addr : String) : User :=
  { id := addr, bids := [], buys := [], sells := [], ownedMasters := [], ownerControllers := [] }

/-- Modelled from the spec: `createOrFetchUserString` (in the absent
`src/util`) resolves an address to its User record, creating and persisting an
empty one on first sight (§4.2). -/
def createOrFetchUserString (addr : String) (s : State) : State × User :=
  match s.users.load addr with
  | some u => (s, u)
  | none => ({ s with users := s.users.save addr (emptyUser addr) }, emptyUser addr)

/-- Modelled from the spec: `getOrInitialiseToken` (in the absent `src/util`)
loads the existing Token for a non-creation event; a missing token is reported
as absent, never fabricated (§4.3). -/
def getOrInitialiseToken (s : State) (tokenId : Nat) : Option Token :=
  s.tokens.load (natStr tokenId)

/-- Modelled from the spec: `getPermissionedAddress` (in the absent `src/util`)
queries the source for the permissioned address of the token with respect to
the new owner at the time of the triggering transaction (§6). -/
def getPermissionedAddress (O : Source) (tokenId : Nat) (newOwner : String) : Option String :=
  O.permissionedAddress tokenId newOwner

/-- Whether the token with the given numeric id is a master token in the
current store. -/
def tokenIsMaster (s : State) (m : Nat) : Bool :=
  match s.tokens.load (natStr m) with
  | some t => t.isMaster
  | none => false

/-- Modelled from the spec: the parent of a controller token is rederivable
from token ids alone — it is the greatest master-token id below the
controller's id in the contiguous id range (§3, §4.6). -/
def derivedMaster (s : State) (t : Nat) : Option Nat :=
  ((List.range t).filter (fun m => tokenIsMaster s m)).max?

/-- Modelled from the spec: the per-controller step of the linkage
reconciliation recomputes the controller's derived association to its master
token from token ids alone (§4.6). -/
def reconcileController (s : State) (c : TokenController) : TokenController :=
  { c with associatedMasterToken := (derivedMaster s c.tokenId).map natStr }

/-- Modelled from the spec: `trySetMasterLayers` / `linkMasterAndControllers`
(in the absent `src/util`) form the linkage reconciler, which idempotently
recomputes the derived parent association of every controller record (§4.6).
It only rewrites derived fields, never the base state it reads. -/
def reconcile (s : State) : State :=
  { s with controllers := s.controllers.map (fun kv => (kv.1, reconcileController s kv.2)) }

/-- Number of records the reconciler would actually rewrite on the given
state: the controllers whose stored derived association differs from the
recomputed one ("side-effect-only-if-changed", §4.6). -/
def reconcileWrites (s : State) : Nat :=
  (s.controllers.filter (fun kv => decide (reconcileController s kv.2 ≠ kv.2))).length

/-- A fresh Token record as created by the creation event. -/
def defaultToken (id : String) (owner : String) (isMaster : Bool) : Token :=
  { id := id, owner := owner, currentBuyPrice := 0, currentBid := none
    permissionedAddress := none, numberOfSales := 0, tokenDidHaveFirstSale := false
    isMaster := isMaster, platformFirstSalePercentage := 0, platformSecondSalePercentage := 0
    lastSale := none, lastTransfer := none, pastBids := [], pastOwners := []
    allTransfers := [], allSales := [] }

/-- A fresh TokenController record for the controller token `tid`. -/
def defaultController (tid : Nat) : TokenController :=
  { id := controllerKey tid, tokenId := tid, numberOfUpdates := 0, numRemainingUpdates := 0
    averageUpdateCost := 0, lastUpdate := none, allUpdates := [], associatedMasterToken := none }

/-- A fresh TokenControlLever record. -/
def defaultLever (id : String) : TokenControlLever :=
  { id := id, previousValue := 0, currentValue := 0, numberOfUpdates := 0, latestUpdate := none }

/-- Create the fixed set of lever records `0 .. count-1` of controller token
`tid`. -/
def createLevers (tid : Nat) : Nat → Store TokenControlLever → Store TokenControlLever
  | 0, st => st
  | j + 1, st =>
    (createLevers tid j st).save (leverKey tid j) (defaultLever (leverKey tid j))

/-- Create the controller (child) tokens `masterId+1 .. masterId+count`, each
with its TokenController record and its fixed lever set. -/
def createChildren (O : Source) (creator : String) (masterId : Nat) : Nat → State → State
  | 0, s => s
  | i + 1, s =>
    let s1 := createChildren O creator masterId i s
    let cid := masterId + i + 1
    { s1 with
      tokens := s1.tokens.save (natStr cid) (defaultToken (natStr cid) creator false)
      controllers := s1.controllers.save (controllerKey cid) (defaultController cid)
      levers := createLevers cid O.leversPerChild s1.levers }

/-- Modelled from the spec: `createTokensFromMasterTokenId` (in the absent
`src/util`) creates, for a creation event carrying master id `masterId` and
child count `layerCount`, one master Token (isMaster=true) and `layerCount`
child Tokens (isMaster=false) with consecutive sequential ids, plus one
TokenController and its fixed lever set per child; the creator is resolved to
a User record on first sight (§4.3, §2). -/
def createTokensFromMasterTokenId (O : Source) (creator : String) (masterId layerCount : Nat)
    (s : State) : State :=
  let s1 := (createOrFetchUserString creator s).1
  let s2 := { s1 with
    tokens := s1.tokens.save (natStr masterId) (defaultToken (natStr masterId) creator true) }
  createChildren O creator masterId layerCount s2

/-- Handler for ArtistSecondSalePercentUpdated. -/
def handleArtistSecondSalePercentUpdated (O : Source) (_meta : EventMeta)
    (artistSecondPercentage : Nat) (s : State) : State × List LogEntry :=
  let s1 := (getOrInitialiseGlobalState O s).1
  let g := (getOrInitialiseGlobalState O s).2
  ({ s1 with globalState := some { g with artistSecondSalePercentage := artistSecondPercentage } },
   [])

/-- Handler for PlatformAddressUpdated. -/
def handlePlatformAddressUpdated (O : Source) (_meta : EventMeta)
    (platformAddress : String) (s : State) : State × List LogEntry :=
  let s1 := (getOrInitialiseGlobalState O s).1
  let g := (getOrInitialiseGlobalState O s).2
  ({ s1 with globalState := some { g with platformAddress := platformAddress } }, [])

/-- Handler for BidProposed: create a fresh active bid, deactivate and archive
the previously current bid if one loads, attach the new bid as current, and
reconcile. A missing token is logged as a warning and the event is skipped. -/
def handleBidProposed (O : Source) (meta : EventMeta) (tokenId bidAmount : Nat)
    (bidder : String) (s : State) : State × List LogEntry :=
  let s1 := (getOrInitialiseGlobalState O s).1
  let tokenOpt := getOrInitialiseToken s1 tokenId
  let s2 := (createOrFetchUserString bidder s1).1
  let user := (createOrFetchUserString bidder s1).2
  match tokenOpt with
  | none => (s2, [(LogLevel.warning, "Bid on token that doesn't exist")])
  | some token =>
    let bid : Bid :=
      { id := bidKey tokenId meta.txHash
        tokenDetails := natStr tokenId
        bidAmount := bidAmount
        bidder := user.id
        bidTimestamp := meta.timestamp
        bidActive := true
        bidAccepted := false
        bidWithdrawnTimestamp := none }
    let step :=
      match loadOpt s2.bids token.currentBid with
      | some oldBid =>
        let oldBid1 := { oldBid with bidActive := false }
        let token1 := { token with pastBids := token.pastBids ++ [oldBid1.id] }
        ({ s2 with bids := s2.bids.save oldBid1.id oldBid1 }, token1)
      | none => (s2, token)
    let s3 := step.1
    let token2 := step.2
    let user1 := { user with bids := user.bids ++ [bid.id] }
    let token3 := { token2 with currentBid := some bid.id }
    let s4 := { s3 with users := s3.users.save user1.id user1 }
    let s5 := { s4 with tokens := s4.tokens.save token3.id token3 }
    let s6 := { s5 with bids := s5.bids.save bid.id bid }
    (reconcile s6, [])

/-- Handler for BidWithdrawn: deactivate the current bid, stamp the withdrawal
timestamp and archive it. A missing token is a critical error; a missing
current bid is logged as a warning and the event is skipped. -/
def handleBidWithdrawn (O : Source) (meta : EventMeta) (tokenId : Nat)
    (s : State) : State × List LogEntry :=
  let s1 := refreshGlobalState O s
  match getOrInitialiseToken s1 tokenId with
  | none => (s1, [(LogLevel.critical, "Token should be defined")])
  | some token =>
    match loadOpt s1.bids token.currentBid with
    | none => (s1, [(LogLevel.warning, "Bid should be defined")])
    | some bid =>
      let bid1 := { bid with bidActive := false, bidWithdrawnTimestamp := some meta.timestamp }
      let token1 := { token with pastBids := token.pastBids ++ [bid1.id] }
      let s2 := { s1 with bids := s1.bids.save bid1.id bid1 }
      let s3 := { s2 with tokens := s2.tokens.save token1.id token1 }
      (s3, [])

/-- Handler for BuyPriceSet: overwrite the token's current buy price and
reconcile. A missing token is logged as a warning and the event is skipped. -/
def handleBuyPriceSet (O : Source) (_meta : EventMeta) (tokenId price : Nat)
    (s : State) : State × List LogEntry :=
  let s1 := refreshGlobalState O s
  match getOrInitialiseToken s1 tokenId with
  | none => (s1, [(LogLevel.warning, "Token should be defined")])
  | some token =>
    let token1 := { token with currentBuyPrice := price }
    let s2 := { s1 with tokens := s1.tokens.save token1.id token1 }
    (reconcile s2, [])

/-- The lever loop of ControlLeverUpdated: for each batch index, load the
lever by composite key, overwrite previous/current values, bump its update
counter and link it to the layer update; a missing lever stops the handler
(null dereference). Returns the updated lever store and the accumulated
`leversUpdated` list. -/
def applyLevers (tokenId : Nat) (layerUpdateId : String) :
    Store TokenControlLever → List String → List Nat → List Nat → List Nat →
    Option (Store TokenControlLever × List String)
  | levers, acc, [], _, _ => some (levers, acc)
  | levers, acc, pv :: pvs, lid :: lids, uv :: uvs =>
    match levers.load (leverKey tokenId lid) with
    | none => none
    | some lever =>
      let lever1 := { lever with
        previousValue := pv
        currentValue := uv
        latestUpdate := some layerUpdateId
        numberOfUpdates := lever.numberOfUpdates + 1 }
      applyLevers tokenId layerUpdateId (levers.save lever1.id lever1) (acc ++ [lever1.id])
        pvs lids uvs
  | _, _, _ :: _, _, _ => none

/-- Handler for ControlLeverUpdated: compute the batch cost as gasUsed ×
gasPrice, fold it into the controller's running average (first update sets the
average directly), bump the update counter, create one LayerUpdate per batch
and rewrite each touched lever. Missing token or controller records are
critical errors. -/
def handleControlLeverUpdated (O : Source) (meta : EventMeta)
    (tokenId priorityTip numRemainingUpdates : Nat)
    (leverIds previousValues updatedValues : List Nat)
    (s : State) : State × List LogEntry :=
  let s1 := refreshGlobalState O s
  let updateCost := meta.gasUsed * meta.gasPrice
  match getOrInitialiseToken s1 tokenId with
  | none => (s1, [(LogLevel.critical, "Token should be defined")])
  | some token =>
    match s1.controllers.load (controllerKey tokenId) with
    | none => (s1, [(LogLevel.critical, "TokenController should be defined")])
    | some controllerToken =>
      let newNumberOfUpdates := controllerToken.numberOfUpdates + 1
      let controller1 :=
        if controllerToken.numberOfUpdates = 0 then
          { controllerToken with averageUpdateCost := updateCost }
        else
          { controllerToken with averageUpdateCost :=
              (controllerToken.averageUpdateCost * controllerToken.numberOfUpdates + updateCost)
                / newNumberOfUpdates }
      let controller2 := { controller1 with
        numberOfUpdates := newNumberOfUpdates
        numRemainingUpdates := numRemainingUpdates }
      let layerUpdate : LayerUpdate :=
        { id := layerUpdateKey tokenId newNumberOfUpdates
          updateNumber := newNumberOfUpdates
          gasPrice := meta.gasPrice
          gasUsed := meta.gasUsed
          costInWei := updateCost
          priorityTip := priorityTip
          layer := controller2.id
          leversUpdated := [] }
      match applyLevers tokenId layerUpdate.id s1.levers [] previousValues leverIds updatedValues with
      | none => (s1, [(LogLevel.critical, "TokenControlLever should be defined")])
      | some (levers1, updatedIds) =>
        let layerUpdate1 := { layerUpdate with leversUpdated := updatedIds }
        let controller3 := { controller2 with
          allUpdates := controller2.allUpdates ++ [layerUpdate1.id]
          lastUpdate := some layerUpdate1.id }
        let s2 := { s1 with levers := levers1 }
        let s3 := { s2 with layerUpdates := s2.layerUpdates.save layerUpdate1.id layerUpdate1 }
        let s4 := { s3 with controllers := s3.controllers.save controller3.id controller3 }
        let s5 := { s4 with tokens := s4.tokens.save token.id token }
        (s5, [])

/-- Handler for CreatorWhitelisted (the creation event): record the latest
master token id, set the expected total token supply to
`tokenId + layerCount + 1` and create the master and its children. -/
def handleCreatorWhitelisted (O : Source) (_meta : EventMeta)
    (tokenId layerCount : Nat) (creator : String) (s : State) : State × List LogEntry :=
  let s1 := (getOrInitialiseGlobalState O s).1
  let g := (getOrInitialiseGlobalState O s).2
  let g1 := { g with
    latestMasterTokenId := tokenId
    currentExpectedTokenSupply := tokenId + layerCount + 1 }
  let s2 := { s1 with globalState := some g1 }
  (createTokensFromMasterTokenId O creator tokenId layerCount s2, [])

/-- Handler for PermissionUpdated: update the token's permissioned address only
when the granter is the current token owner, then reconcile. A missing token is
a critical error. -/
def handlePermissionUpdated (O : Source) (_meta : EventMeta) (tokenId : Nat)
    (tokenOwner permissioned : String) (s : State) : State × List LogEntry :=
  let s1 := (getOrInitialiseGlobalState O s).1
  match getOrInitialiseToken s1 tokenId with
  | none => (s1, [(LogLevel.critical, "Token should be defined")])
  | some token =>
    let s2 :=
      if tokenOwner = token.owner then
        let token1 := { token with permissionedAddress := some permissioned }
        { s1 with tokens := s1.tokens.save token1.id token1 }
      else s1
    (reconcile s2, [])

/-- Handler for PlatformSalePercentageUpdated: overwrite the token's platform
fee percentages and reconcile. A missing token is a critical error. -/
def handlePlatformSalePercentageUpdated (O : Source) (_meta : EventMeta)
    (tokenId platformFirstPercentage platformSecondPercentage : Nat)
    (s : State) : State × List LogEntry :=
  let s1 := refreshGlobalState O s
  match getOrInitialiseToken s1 tokenId with
  | none => (s1, [(LogLevel.critical, "Token should be defined")])
  | some token =>
    let token1 := { token with
      platformFirstSalePercentage := platformFirstPercentage
      platformSecondSalePercentage := platformSecondPercentage }
    let s2 := { s1 with tokens := s1.tokens.save token1.id token1 }
    (reconcile s2, [])

/-- Handler for TokenSale: accumulate the global sale volume, build the Sale
record with the next per-token sale number, classify it as a bid sale exactly
when the current bid's amount and bidder both match the sale, archive the
current bid, reassign ownership, reset the buy price, clear the current bid,
re-resolve the permission and update both relationship lists; then reconcile.
A missing token or seller record stops the handler (null dereference). -/
def handleTokenSale (O : Source) (meta : EventMeta) (tokenId salePrice : Nat)
    (buyerAddr : String) (s : State) : State × List LogEntry :=
  let s1 := (getOrInitialiseGlobalState O s).1
  let g := (getOrInitialiseGlobalState O s).2
  let g1 := { g with totalSaleAmount := g.totalSaleAmount + salePrice }
  let s2 := (createOrFetchUserString buyerAddr s1).1
  let buyer := (createOrFetchUserString buyerAddr s1).2
  match getOrInitialiseToken s2 tokenId with
  | none => (s2, [(LogLevel.critical, "Token should be defined")])
  | some token =>
    match s2.users.load token.owner with
    | none => (s2, [(LogLevel.critical, "User should be defined")])
    | some seller =>
      let tokenSaleNumber := token.numberOfSales + 1
      let sale : Sale :=
        { id := saleKey tokenId tokenSaleNumber
          tokenDetails := token.id
          buyer := buyer.id
          seller := seller.id
          salePrice := salePrice
          saleTimestamp := meta.timestamp
          tokenSaleNumber := tokenSaleNumber
          isBidSale := false
          bidDetails := none }
      let step :=
        match loadOpt s2.bids token.currentBid with
        | none => (s2, sale, token, [(LogLevel.info, "No bid exists")])
        | some bid =>
          let bid1 :=
            if bid.bidAmount = salePrice ∧ buyerAddr = bid.bidder then
              { bid with bidAccepted := true }
            else bid
          let sale1 :=
            if bid.bidAmount = salePrice ∧ buyerAddr = bid.bidder then
              { sale with isBidSale := true, bidDetails := some bid.id }
            else sale
          let bid2 := { bid1 with bidActive := false }
          let token1 := { token with pastBids := token.pastBids ++ [bid2.id] }
          ({ s2 with bids := s2.bids.save bid2.id bid2 }, sale1, token1, ([] : List LogEntry))
      let s3 := step.1
      let sale2 := step.2.1
      let token2 := step.2.2.1
      let logs := step.2.2.2
      let token3 := { token2 with
        owner := buyer.id
        lastSale := some sale2.id
        currentBuyPrice := 0
        numberOfSales := token2.numberOfSales + 1
        tokenDidHaveFirstSale := true
        allSales := token2.allSales ++ [sale2.id]
        currentBid := none
        permissionedAddress := getPermissionedAddress O tokenId buyerAddr }
      let buyer1 := { buyer with buys := buyer.buys ++ [sale2.id] }
      let seller1 := { seller with sells := seller.sells ++ [sale2.id] }
      let s4 := { s3 with users := s3.users.save buyer1.id buyer1 }
      let s5 := { s4 with users := s4.users.save seller1.id seller1 }
      let s6 := { s5 with sales := s5.sales.save sale2.id sale2 }
      let s7 := { s6 with tokens := s6.tokens.save token3.id token3 }
      let s8 := { s7 with globalState := some g1 }
      (reconcile s8, logs)

/-- Handler for Transfer: record the audit transfer, re-resolve the
permission, reassign ownership, reset the buy price, extend the historical
lists and the new owner's holdings, then reconcile. A missing token is a
critical error. -/
def handleTransfer (O : Source) (meta : EventMeta) (tokenId : Nat)
    (fromAddr toAddr : String) (s : State) : State × List LogEntry :=
  let s1 := refreshGlobalState O s
  let s2 := (createOrFetchUserString toAddr s1).1
  let toUser := (createOrFetchUserString toAddr s1).2
  let tokenOpt := getOrInitialiseToken s2 tokenId
  let s3 := (createOrFetchUserString fromAddr s2).1
  let fromUser := (createOrFetchUserString fromAddr s2).2
  match tokenOpt with
  | none => (s3, [(LogLevel.critical, "Token should be defined")])
  | some token =>
    let transfer : TokenTransfer :=
      { id := transferKey tokenId meta.txHash
        tokenDetails := token.id
        «to» := toUser.id
        «from» := fromUser.id
        timestamp := meta.timestamp }
    let token1 := { token with
      permissionedAddress := getPermissionedAddress O tokenId toAddr
      owner := toUser.id
      currentBuyPrice := 0
      lastTransfer := some transfer.id
      allTransfers := token.allTransfers ++ [transfer.id]
      pastOwners :=
        if fromUser.id ∈ token.pastOwners then token.pastOwners
        else token.pastOwners ++ [fromUser.id] }
    let toUser1 :=
      if token.isMaster then
        { toUser with ownedMasters :=
            if (token.id ++ "-Master") ∈ toUser.ownedMasters then toUser.ownedMasters
            else toUser.ownedMasters ++ [token.id ++ "-Master"] }
      else
        { toUser with ownerControllers :=
            if (token.id ++ "-Controller") ∈ toUser.ownerControllers then toUser.ownerControllers
            else toUser.ownerControllers ++ [token.id ++ "-Controller"] }
    let s4 := { s3 with users := s3.users.save toUser1.id toUser1 }
    let s5 := { s4 with users := s4.users.save fromUser.id fromUser }
    let s6 := { s5 with transfers := s5.transfers.save transfer.id transfer }
    let s7 := { s6 with tokens := s6.tokens.save token1.id token1 }
    (reconcile s7, [])

/-- The event log alphabet: one constructor per handled contract event. -/
inductive Event where
  | artistSecondSalePercentUpdated (meta : EventMeta) (artistSecondPercentage : Nat)
  | bidProposed (meta : EventMeta) (tokenId bidAmount : Nat) (bidder : String)
  | bidWithdrawn (meta : EventMeta) (tokenId : Nat)
  | buyPriceSet (meta : EventMeta) (tokenId price : Nat)
  | controlLeverUpdated (meta : EventMeta) (tokenId priorityTip numRemainingUpdates : Nat)
      (leverIds previousValues updatedValues : List Nat)
  | creatorWhitelisted (meta : EventMeta) (tokenId layerCount : Nat) (creator : String)
  | permissionUpdated (meta : EventMeta) (tokenId : Nat) (tokenOwner permissioned : String)
  | platformAddressUpdated (meta : EventMeta) (platformAddress : String)
  | platformSalePercentageUpdated (meta : EventMeta)
      (tokenId platformFirstPercentage platformSecondPercentage : Nat)
  | tokenSale (meta : EventMeta) (tokenId salePrice : Nat) (buyer : String)
  | transfer (meta : EventMeta) (tokenId : Nat) (fromAddr toAddr : String)
deriving Repr, DecidableEq

/-- Dispatch one event to its handler. -/
def applyEvent (O : Source) (e : Event) (s : State) : State × List LogEntry :=
  match e with
  | .artistSecondSalePercentUpdated meta pct => handleArtistSecondSalePercentUpdated O meta pct s
  | .bidProposed meta tokenId bidAmount bidder => handleBidProposed O meta tokenId bidAmount bidder s
  | .bidWithdrawn meta tokenId => handleBidWithdrawn O meta tokenId s
  | .buyPriceSet meta tokenId price => handleBuyPriceSet O meta tokenId price s
  | .controlLeverUpdated meta tokenId tip rem lids pvs uvs =>
    handleControlLeverUpdated O meta tokenId tip rem lids pvs uvs s
  | .creatorWhitelisted meta tokenId layerCount creator =>
    handleCreatorWhitelisted O meta tokenId layerCount creator s
  | .permissionUpdated meta tokenId tokenOwner permissioned =>
    handlePermissionUpdated O meta tokenId tokenOwner permissioned s
  | .platformAddressUpdated meta addr => handlePlatformAddressUpdated O meta addr s
  | .platformSalePercentageUpdated meta tokenId p1 p2 =>
    handlePlatformSalePercentageUpdated O meta tokenId p1 p2 s
  | .tokenSale meta tokenId salePrice buyer => handleTokenSale O meta tokenId salePrice buyer s
  | .transfer meta tokenId fromAddr toAddr => handleTransfer O meta tokenId fromAddr toAddr s

/-- Process an ordered event list, one event fully before the next. -/
def applyEvents (O : Source) (s : State) (events : List Event) : State :=
  events.foldl (fun st e => (applyEvent O e st).1) s

/-- Whether an event is the creation event. -/
def Event.isCreation : Event → Bool
  | .creatorWhitelisted _ _ _ _ => true
  | _ => false

/-- Whether an event is a bid proposal, bid withdrawal or sale. -/
def Event.isBidFamily : Event → Bool
  | .bidProposed _ _ _ _ => true
  | .bidWithdrawn _ _ => true
  | .tokenSale _ _ _ _ => true
  | _ => false

/-- Number of sale events for the given token in an event list. -/
def saleEventsFor (tid : Nat) (events : List Event) : Nat :=
  events.countP (fun e =>
    match e with
    | .tokenSale _ t _ _ => t == tid
    | _ => false)

/-- The list `[n, n-1, ..., 1]`: the per-token sale numbers as they sit in the
store (most recent first). -/
def countdown : Nat → List Nat
  | 0 => []
  | n + 1 => (n + 1) :: countdown n

/-- All Sale records of the given token, most recently stored first. -/
def salesFor (s : State) (tid : Nat) : List Sale :=
  (s.sales.filter (fun kv => kv.2.tokenDetails == natStr tid)).map (fun kv => kv.2)

/-- The tokenSaleNumber values of the token's Sale records. -/
def saleNumbersFor (s : State) (tid : Nat) : List Nat :=
  (salesFor s tid).map (fun sale => sale.tokenSaleNumber)

/-- The count of Sale records of the given token. -/
def countSalesFor (s : State) (tid : Nat) : Nat := (salesFor s tid).length

/-- One lever-update batch, as carried by a ControlLeverUpdated event. -/
structure LeverBatch where
  meta : EventMeta
  priorityTip : Nat
  numRemainingUpdates : Nat
  leverIds : List Nat
  previousValues : List Nat
  updatedValues : List Nat
deriving Repr, DecidableEq

/-- The event of a lever batch on the given token. -/
def LeverBatch.toEvent (tid : Nat) (b : LeverBatch) : Event :=
  .controlLeverUpdated b.meta tid b.priorityTip b.numRemainingUpdates
    b.leverIds b.previousValues b.updatedValues

/-- The batch cost: gasUsed × gasPrice of the triggering transaction. -/
def LeverBatch.cost (b : LeverBatch) : Nat := b.meta.gasUsed * b.meta.gasPrice

/-- One step of the incremental running average maintained by the
ControlLeverUpdated handler. -/
def updateAverage (avg count cost : Nat) : Nat :=
  if count = 0 then cost else (avg * count + cost) / (count + 1)

/-- Fold a list of costs into a running (average, count) pair. -/
def runningAverageFrom (p : Nat × Nat) (costs : List Nat) : Nat × Nat :=
  costs.foldl (fun q c => (updateAverage q.1 q.2 c, q.2 + 1)) p

/-- The running average after folding a list of costs, starting from an
untouched controller (average 0, count 0). -/
def runningAverage (costs : List Nat) : Nat :=
  (runningAverageFrom (0, 0) costs).1

/-- Well-formedness of a lever batch: parallel arrays of equal length and
lever ids within the fixed per-child lever set. -/
abbrev LeverBatch.ok (O : Source) (b : LeverBatch) : Prop :=
  b.leverIds.length = b.previousValues.length ∧
  b.updatedValues.length = b.previousValues.length ∧
  ∀ l ∈ b.leverIds, l < O.leversPerChild

/-- All lever records of the controller token's fixed lever set are present. -/
abbrev leversReady (O : Source) (tid : Nat) (s : State) : Prop :=
  ∀ j, j < O.leversPerChild → (s.levers.load (leverKey tid j)).isSome = true

/-- The bid-store coherence invariant maintained by the bid/sale state
machine: every stored Bid sits under its own id, every Token keyed by a
numeric id carries that id, and every *active* Bid is exactly the current bid
of its token — which forces at most one active bid per token. -/
def BidStoresOk (s : State) : Prop :=
  (∀ k b, s.bids.load k = some b → b.id = k) ∧
  (∀ tid t, s.tokens.load (natStr tid) = some t → t.id = natStr tid) ∧
  (∀ k b, s.bids.load k = some b → b.bidActive = true →
    ∃ t, s.tokens.load b.tokenDetails = some t ∧ t.currentBid = some k)

/-- The sale-store coherence invariant maintained by the handlers: every
Token keyed by a numeric id carries that id, its owner resolves to a stored
User, and its Sale records carry exactly the tokenSaleNumber values
numberOfSales, numberOfSales-1, ..., 1 (most recently stored first); every
stored Sale belongs to a stored token, sits under the key formed from the
token id and its sale number, and its number lies in 1..numberOfSales. -/
def SaleStoresOk (s : State) : Prop :=
  (∀ tid t, s.tokens.load (natStr tid) = some t →
    t.id = natStr tid ∧ (s.users.load t.owner).isSome = true ∧
    saleNumbersFor s tid = countdown t.numberOfSales) ∧
  (∀ k sale, s.sales.load k = some sale →
    ∃ tid t, s.tokens.load (natStr tid) = some t ∧ sale.tokenDetails = natStr tid ∧
      k = saleKey tid sale.tokenSaleNumber ∧ sale.id = k ∧
      1 ≤ sale.tokenSaleNumber ∧ sale.tokenSaleNumber ≤ t.numberOfSales)

/-- The intermediate state inside `handleCreatorWhitelisted` just before token
creation: global config loaded and updated with the new master id and the
expected supply `M + N + 1`. -/
def creationState (O : Source) (M N : Nat) (s : State) : State :=
  let s1 := (getOrInitialiseGlobalState O s).1
  let g := (getOrInitialiseGlobalState O s).2
  let g1 := { g with latestMasterTokenId := M, currentExpectedTokenSupply := M + N + 1 }
  { s1 with globalState := some g1 }

/-- A concrete source oracle used by the witness scenarios. -/
def oracle0 : Source :=
  { permissionedAddress := fun _ _ => none
    initialGlobalState :=
      { latestMasterTokenId := 0, currentExpectedTokenSupply := 0, totalSaleAmount := 0
        artistSecondSalePercentage := 10, platformAddress := "0xplatform" }
    leversPerChild := 2 }

/-- Concrete transaction metadata used by the witness scenarios. -/
def meta0 (h : String) : EventMeta :=
  { timestamp := 1000, blockNumber := 1, txHash := h, gasPrice := 0, gasUsed := 0 }

/-- Transaction metadata with explicit gas figures, for the cost scenarios. -/
def metaGas (h : String) (price used : Nat) : EventMeta :=
  { timestamp := 1000, blockNumber := 1, txHash := h, gasPrice := price, gasUsed := used }

/-- A concrete post-creation state used by the witness scenarios: master token
0 with one controller token 1. -/
def demoCreation : State :=
  (applyEvent oracle0 (.creatorWhitelisted (meta0 "0xc") 0 1 "0xa") State.init).1

/-- `demoCreation` after user 0xb proposes a 100-wei bid on token 0. -/
def demoBid : State :=
  (applyEvent oracle0 (.bidProposed (meta0 "0xh1") 0 100 "0xb") demoCreation).1

/-- The token-0 record inside `demoBid`: freshly created, with the 0xb bid
attached as current. -/
def demoBidToken : Token :=
  { defaultToken (natStr 0) "0xa" true with currentBid := some (bidKey 0 "0xh1") }

/-- The bid record inside `demoBid`. -/
def demoBidBid : Bid :=
  { id := bidKey 0 "0xh1", tokenDetails := natStr 0, bidAmount := 100, bidder := "0xb"
    bidTimestamp := 1000, bidActive := true, bidAccepted := false
    bidWithdrawnTimestamp := none }

/-- Scenario-C batches: three empty lever batches with costs 10, 20, 30. -/
def demoBatches : List LeverBatch :=
  [{ meta := metaGas "0xg1" 10 1, priorityTip := 0, numRemainingUpdates := 5
     leverIds := [], previousValues := [], updatedValues := [] },
   { meta := metaGas "0xg2" 20 1, priorityTip := 0, numRemainingUpdates := 5
     leverIds := [], previousValues := [], updatedValues := [] },
   { meta := metaGas "0xg3" 30 1, priorityTip := 0, numRemainingUpdates := 5
     leverIds := [], previousValues := [], updatedValues := [] }]

/-!  Theorems.  First the generic machinery: decimal-rendering facts, store
facts and shape lemmas for the helper routines; then the claim theorems. -/

theorem digitChar_ne_dash (d : Nat) : digitChar d ≠ '-' := by
  unfold digitChar
  split_ifs <;> decide

theorem digitChar_inj {a b : Nat} (ha : a < 10) (hb : b < 10) :
    digitChar a = digitChar b → a = b := by
  interval_cases a <;> interval_cases b <;> decide

theorem natCharsGo_ne_nil {f n : Nat} (h : n < f) : natCharsGo f n ≠ [] := by
  cases f with
  | zero => omega
  | succ g =>
    unfold natCharsGo
    split
    · simp
    · simp

theorem natCharsGo_no_dash : ∀ (f n : Nat), n < f → '-' ∉ natCharsGo f n := by
  intro f
  induction f with
  | zero => intro n h; omega
  | succ g ih =>
    intro n h
    unfold natCharsGo
    split
    · intro hmem
      have : '-' = digitChar n := by simpa using hmem
      exact digitChar_ne_dash n this.symm
    · rename_i hn
      intro hmem
      have hdiv : n / 10 < n := Nat.div_lt_self (by omega) (by omega)
      rcases List.mem_append.1 hmem with h1 | h2
      · exact ih (n / 10) (by omega) h1
      · have : '-' = digitChar (n % 10) := by simpa using h2
        exact digitChar_ne_dash (n % 10) this.symm

theorem natCharsGo_inj : ∀ (f1 : Nat) (n1 : Nat) (f2 n2 : Nat), n1 < f1 → n2 < f2 →
    natCharsGo f1 n1 = natCharsGo f2 n2 → n1 = n2 := by
  intro f1
  induction f1 with
  | zero => intro n1 f2 n2 h1; omega
  | succ g1 ih =>
    intro n1 f2 n2 h1 h2 heq
    cases f2 with
    | zero => omega
    | succ g2 =>
      unfold natCharsGo at heq
      by_cases hn1 : n1 < 10 <;> by_cases hn2 : n2 < 10
      · simp only [hn1, hn2, if_true] at heq
        exact digitChar_inj hn1 hn2 (by simpa using heq)
      · simp only [hn1, hn2, if_true, if_false] at heq
        exfalso
        have hlen := congrArg List.length heq
        have hne : natCharsGo g2 (n2 / 10) ≠ [] := by
          have : n2 / 10 < n2 := Nat.div_lt_self (by omega) (by omega)
          exact natCharsGo_ne_nil (by omega)
        simp only [List.length_cons, List.length_nil, List.length_append] at hlen
        have := List.length_pos.2 hne
        omega
      · simp only [hn1, hn2, if_true, if_false] at heq
        exfalso
        have hlen := congrArg List.length heq
        have hne : natCharsGo g1 (n1 / 10) ≠ [] := by
          have : n1 / 10 < n1 := Nat.div_lt_self (by omega) (by omega)
          exact natCharsGo_ne_nil (by omega)
        simp only [List.length_cons, List.length_nil, List.length_append] at hlen
        have := List.length_pos.2 hne
        omega
      · simp only [hn1, hn2, if_false] at heq
        have hrev := congrArg List.reverse heq
        simp only [List.reverse_append, List.reverse_cons, List.reverse_nil, List.nil_append,
          List.singleton_append] at hrev
        obtain ⟨hdig, hrest⟩ := List.cons.inj hrev
        have hd1 : n1 / 10 < n1 := Nat.div_lt_self (by omega) (by omega)
        have hd2 : n2 / 10 < n2 := Nat.div_lt_self (by omega) (by omega)
        have hrest2 : natCharsGo g1 (n1 / 10) = natCharsGo g2 (n2 / 10) := by
          have := congrArg List.reverse hrest
          simpa using this
        have hdiv : n1 / 10 = n2 / 10 :=
          ih (n1 / 10) g2 (n2 / 10) (by omega) (by omega) hrest2
        have hmod : n1 % 10 = n2 % 10 :=
          digitChar_inj (Nat.mod_lt _ (by omega)) (Nat.mod_lt _ (by omega)) hdig
        omega

theorem natStr_data (n : Nat) : (natStr n).data = natCharsGo (n + 1) n := rfl

theorem natStr_inj {m n : Nat} (h : natStr m = natStr n) : m = n := by
  have hd : natCharsGo (m + 1) m = natCharsGo (n + 1) n := congrArg String.data h
  exact natCharsGo_inj (m + 1) m (n + 1) n (by omega) (by omega) hd

theorem natStr_no_dash (n : Nat) : '-' ∉ (natStr n).data :=
  natCharsGo_no_dash (n + 1) n (by omega)

theorem append_dash_inj : ∀ (xs xs' ys ys' : List Char), '-' ∉ xs → '-' ∉ xs' →
    xs ++ '-' :: ys = xs' ++ '-' :: ys' → xs = xs' ∧ ys = ys' := by
  intro xs
  induction xs with
  | nil =>
    intro xs' ys ys' _ h2 heq
    cases xs' with
    | nil => simpa using heq
    | cons b t =>
      exfalso
      simp only [List.nil_append, List.cons_append] at heq
      obtain ⟨hb, _⟩ := List.cons.inj heq
      exact h2 (hb ▸ List.mem_cons_self b t)
  | cons a t ih =>
    intro xs' ys ys' h1 h2 heq
    cases xs' with
    | nil =>
      exfalso
      simp only [List.nil_append, List.cons_append] at heq
      obtain ⟨hb, _⟩ := List.cons.inj heq
      exact h1 (hb ▸ List.mem_cons_self a t)
    | cons b t' =>
      simp only [List.cons_append] at heq
      obtain ⟨hab, hrest⟩ := List.cons.inj heq
      have h1' : '-' ∉ t := fun hm => h1 (List.mem_cons_of_mem a hm)
      have h2' : '-' ∉ t' := fun hm => h2 (List.mem_cons_of_mem b hm)
      obtain ⟨he1, he2⟩ := ih t' ys ys' h1' h2' hrest
      exact ⟨by rw [hab, he1], he2⟩

theorem string_data_append (a b : String) : (a ++ b).data = a.data ++ b.data :=
  String.data_append a b

theorem natPairKey_inj {a b c d : Nat}
    (h : natStr a ++ "-" ++ natStr b = natStr c ++ "-" ++ natStr d) : a = c ∧ b = d := by
  have hd := congrArg String.data h
  simp only [string_data_append] at hd
  have hd2 : (natStr a).data ++ '-' :: (natStr b).data
      = (natStr c).data ++ '-' :: (natStr d).data := by
    simpa [List.append_assoc] using hd
  obtain ⟨h1, h2⟩ := append_dash_inj _ _ _ _ (natStr_no_dash a) (natStr_no_dash c) hd2
  constructor
  · exact natCharsGo_inj (a + 1) a (c + 1) c (by omega) (by omega) h1
  · exact natCharsGo_inj (b + 1) b (d + 1) d (by omega) (by omega) h2

theorem saleKey_inj {a b c d : Nat} (h : saleKey a b = saleKey c d) : a = c ∧ b = d :=
  natPairKey_inj h

theorem leverKey_inj {a b c d : Nat} (h : leverKey a b = leverKey c d) : a = c ∧ b = d :=
  natPairKey_inj h

theorem controllerKey_inj {a b : Nat} (h : controllerKey a = controllerKey b) : a = b := by
  unfold controllerKey at h
  have hd := congrArg String.data h
  have hd2 : (natStr a).data ++ '-' :: "Controller".data
      = (natStr b).data ++ '-' :: "Controller".data := by
    simpa [string_data_append] using hd
  obtain ⟨h1, _⟩ := append_dash_inj _ _ _ _ (natStr_no_dash a) (natStr_no_dash b) hd2
  exact natCharsGo_inj (a + 1) a (b + 1) b (by omega) (by omega) h1

theorem Store.load_save_self {α : Type} (s : Store α) (k : String) (v : α) :
    (s.save k v).load k = some v := by
  simp [Store.save, Store.load]

theorem Store.load_removeKey_of_ne {α : Type} (s : Store α) (k k' : String) (h : k' ≠ k) :
    (s.removeKey k).load k' = s.load k' := by
  induction s with
  | nil => rfl
  | cons kv rest ih =>
    obtain ⟨key, v⟩ := kv
    simp only [Store.removeKey]
    by_cases hk : key = k
    · rw [if_pos hk, ih]
      have hne : key ≠ k' := fun hh => h (by rw [← hh, hk])
      simp [Store.load, hne]
    · rw [if_neg hk]
      simp only [Store.load]
      by_cases hk' : key = k'
      · simp [hk']
      · simp [hk', ih]

theorem Store.load_save_of_ne {α : Type} (s : Store α) (k k' : String) (v : α) (h : k' ≠ k) :
    (s.save k v).load k' = s.load k' := by
  simp only [Store.save, Store.load, if_neg (fun hh : k = k' => h hh.symm)]
  exact Store.load_removeKey_of_ne s k k' h

theorem Store.load_save {α : Type} (s : Store α) (k k' : String) (v : α) :
    (s.save k v).load k' = if k' = k then some v else s.load k' := by
  by_cases h : k' = k
  · subst h; simp [Store.load_save_self]
  · simp [h, Store.load_save_of_ne s k k' v h]

theorem Store.removeKey_of_load_none {α : Type} (s : Store α) (k : String)
    (h : s.load k = none) : s.removeKey k = s := by
  induction s with
  | nil => rfl
  | cons kv rest ih =>
    obtain ⟨key, v⟩ := kv
    simp only [Store.load] at h
    by_cases hk : key = k
    · simp [hk] at h
    · simp only [Store.removeKey, if_neg hk]
      rw [ih (by simpa [hk] using h)]

theorem Store.save_of_load_none {α : Type} (s : Store α) (k : String) (v : α)
    (h : s.load k = none) : s.save k v = (k, v) :: s := by
  simp [Store.save, Store.removeKey_of_load_none s k h]

theorem Store.load_isSome_save {α : Type} (s : Store α) (k k' : String) (v : α)
    (h : (s.load k').isSome) : ((s.save k v).load k').isSome := by
  rw [Store.load_save]
  split <;> simp_all

theorem Store.load_map {α β : Type} (f : α → β) (s : Store α) (k : String) :
    Store.load (α := β) (s.map (fun kv => (kv.1, f kv.2))) k = (s.load k).map f := by
  induction s with
  | nil => rfl
  | cons kv rest ih =>
    obtain ⟨key, v⟩ := kv
    by_cases hk : key = k
    · simp [Store.load, hk]
    · simp [Store.load, hk, ih]

theorem getOrInitialiseGlobalState_shape (O : Source) (s : State) :
    ∃ g, getOrInitialiseGlobalState O s = ({ s with globalState := some g }, g) := by
  unfold getOrInitialiseGlobalState
  cases hg : s.globalState with
  | some g =>
    refine ⟨g, ?_⟩
    cases s
    simp_all
  | none => exact ⟨O.initialGlobalState, rfl⟩

theorem refreshGlobalState_shape (O : Source) (s : State) :
    ∃ g, refreshGlobalState O s = { s with globalState := some g } := by
  unfold refreshGlobalState
  obtain ⟨g, hg⟩ := getOrInitialiseGlobalState_shape O s
  rw [hg]
  exact ⟨_, rfl⟩

theorem createOrFetchUserString_shape (addr : String) (s : State) :
    (∃ u, createOrFetchUserString addr s = (s, u) ∧ s.users.load addr = some u) ∨
      (createOrFetchUserString addr s
          = ({ s with users := s.users.save addr (emptyUser addr) }, emptyUser addr) ∧
        s.users.load addr = none) := by
  unfold createOrFetchUserString
  cases hu : s.users.load addr with
  | some u => exact Or.inl ⟨u, rfl, rfl⟩
  | none => exact Or.inr ⟨rfl, rfl⟩

theorem createOrFetchUserString_loads_self (addr : String) (s : State) :
    ((createOrFetchUserString addr s).1).users.load addr
      = some (createOrFetchUserString addr s).2 := by
  rcases createOrFetchUserString_shape addr s with ⟨u, heq, hload⟩ | ⟨heq, _⟩
  · rw [heq]; exact hload
  · rw [heq]
    exact Store.load_save_self _ _ _

theorem createOrFetchUserString_users_isSome (addr k : String) (s : State)
    (h : (s.users.load k).isSome) :
    (((createOrFetchUserString addr s).1).users.load k).isSome := by
  rcases createOrFetchUserString_shape addr s with ⟨u, heq, _⟩ | ⟨heq, _⟩
  · rw [heq]; exact h
  · rw [heq]
    exact Store.load_isSome_save _ _ _ _ h

theorem createOrFetchUserString_users_load_of_some (addr k : String) (s : State) (u : User)
    (h : s.users.load k = some u) :
    ((createOrFetchUserString addr s).1).users.load k = some u := by
  rcases createOrFetchUserString_shape addr s with ⟨w, heq, _⟩ | ⟨heq, hnone⟩
  · rw [heq]; exact h
  · rw [heq]
    have hk : k ≠ addr := by
      intro hk
      rw [hk, hnone] at h
      cases h
    rw [Store.load_save_of_ne _ _ _ _ hk]
    exact h

theorem getOrInitialiseGlobalState_fst (O : Source) (s : State) :
    (getOrInitialiseGlobalState O s).1
      = { s with globalState := some (getOrInitialiseGlobalState O s).2 } := by
  obtain ⟨g, hg⟩ := getOrInitialiseGlobalState_shape O s
  rw [hg]

theorem createOrFetchUserString_globalState (addr : String) (s : State) :
    ((createOrFetchUserString addr s).1).globalState = s.globalState := by
  unfold createOrFetchUserString
  cases s.users.load addr <;> rfl

theorem createOrFetchUserString_tokens (addr : String) (s : State) :
    ((createOrFetchUserString addr s).1).tokens = s.tokens := by
  unfold createOrFetchUserString
  cases s.users.load addr <;> rfl

theorem createOrFetchUserString_bids (addr : String) (s : State) :
    ((createOrFetchUserString addr s).1).bids = s.bids := by
  unfold createOrFetchUserString
  cases s.users.load addr <;> rfl

theorem createOrFetchUserString_sales (addr : String) (s : State) :
    ((createOrFetchUserString addr s).1).sales = s.sales := by
  unfold createOrFetchUserString
  cases s.users.load addr <;> rfl

theorem createOrFetchUserString_controllers (addr : String) (s : State) :
    ((createOrFetchUserString addr s).1).controllers = s.controllers := by
  unfold createOrFetchUserString
  cases s.users.load addr <;> rfl

theorem createOrFetchUserString_levers (addr : String) (s : State) :
    ((createOrFetchUserString addr s).1).levers = s.levers := by
  unfold createOrFetchUserString
  cases s.users.load addr <;> rfl

theorem createOrFetchUserString_layerUpdates (addr : String) (s : State) :
    ((createOrFetchUserString addr s).1).layerUpdates = s.layerUpdates := by
  unfold createOrFetchUserString
  cases s.users.load addr <;> rfl

theorem createOrFetchUserString_transfers (addr : String) (s : State) :
    ((createOrFetchUserString addr s).1).transfers = s.transfers := by
  unfold createOrFetchUserString
  cases s.users.load addr <;> rfl

theorem refreshGlobalState_eq (O : Source) (s : State) :
    refreshGlobalState O s = { s with globalState := (refreshGlobalState O s).globalState } := by
  obtain ⟨g, hg⟩ := refreshGlobalState_shape O s
  rw [hg]

theorem reconcile_globalState (s : State) : (reconcile s).globalState = s.globalState := rfl

theorem reconcile_users (s : State) : (reconcile s).users = s.users := rfl

theorem reconcile_tokens (s : State) : (reconcile s).tokens = s.tokens := rfl

theorem reconcile_bids (s : State) : (reconcile s).bids = s.bids := rfl

theorem reconcile_sales (s : State) : (reconcile s).sales = s.sales := rfl

theorem reconcile_levers (s : State) : (reconcile s).levers = s.levers := rfl

theorem reconcile_layerUpdates (s : State) : (reconcile s).layerUpdates = s.layerUpdates := rfl

theorem reconcile_transfers (s : State) : (reconcile s).transfers = s.transfers := rfl

theorem reconcile_controllers_load (s : State) (k : String) :
    (reconcile s).controllers.load k = (s.controllers.load k).map (reconcileController s) :=
  Store.load_map (reconcileController s) s.controllers k

theorem derivedMaster_congr {s s' : State} (h : s'.tokens = s.tokens) (t : Nat) :
    derivedMaster s' t = derivedMaster s t := by
  unfold derivedMaster tokenIsMaster
  rw [h]

theorem reconcileController_idem {s s' : State} (h : s'.tokens = s.tokens)
    (c : TokenController) :
    reconcileController s' (reconcileController s c) = reconcileController s c := by
  unfold reconcileController
  simp [derivedMaster_congr h]

/-- Claim C8: the linkage reconciliation routine is idempotent — for every
persisted state, running `reconcile` a second time with no intervening
mutation changes nothing and performs no additional writes. -/
theorem reconcile_idempotent (s : State) :
    reconcile (reconcile s) = reconcile s ∧ reconcileWrites (reconcile s) = 0 := by
  have htok : (reconcile s).tokens = s.tokens := rfl
  have hpt : ∀ c, reconcileController (reconcile s) (reconcileController s c)
      = reconcileController s c := fun c => reconcileController_idem htok c
  have hcs : (reconcile s).controllers.map (fun kv => (kv.1, reconcileController (reconcile s) kv.2)) = (reconcile s).controllers := by
    show (s.controllers.map (fun kv => (kv.1, reconcileController s kv.2))).map (fun kv => (kv.1, reconcileController (reconcile s) kv.2)) = s.controllers.map (fun kv => (kv.1, reconcileController s kv.2))
    rw [List.map_map]
    apply List.map_congr_left
    intro kv _
    simp [Function.comp, hpt kv.2]
  constructor
  · calc reconcile (reconcile s)
        = { reconcile s with controllers := (reconcile s).controllers.map (fun kv => (kv.1, reconcileController (reconcile s) kv.2)) } := rfl
      _ = { reconcile s with controllers := (reconcile s).controllers } := by rw [hcs]
      _ = reconcile s := rfl
  · unfold reconcileWrites
    have hnil : (reconcile s).controllers.filter
        (fun kv => decide (reconcileController (reconcile s) kv.2 ≠ kv.2)) = [] := by
      rw [List.filter_eq_nil_iff]
      intro kv hkv
      have : ∃ kv0, kv0 ∈ s.controllers ∧ (kv0.1, reconcileController s kv0.2) = kv := by
        simpa using (List.mem_map.1 hkv)
      obtain ⟨kv0, _, hkv0⟩ := this
      have : reconcileController (reconcile s) kv.2 = kv.2 := by
        rw [← hkv0]
        exact hpt kv0.2
      simp [this]
    rw [hnil]
    rfl

theorem natStr_inj_ne {a b : Nat} (h : a ≠ b) : natStr a ≠ natStr b :=
  fun he => h (natStr_inj he)

theorem createLevers_load_lt (tid : Nat) :
    ∀ (count : Nat) (st : Store TokenControlLever) (j : Nat), j < count →
      (createLevers tid count st).load (leverKey tid j)
        = some (defaultLever (leverKey tid j)) := by
  intro count
  induction count with
  | zero => intro st j h; omega
  | succ c ih =>
    intro st j h
    unfold createLevers
    by_cases hj : j = c
    · subst hj
      exact Store.load_save_self _ _ _
    · rw [Store.load_save_of_ne]
      · exact ih st j (by omega)
      · intro he
        exact hj (leverKey_inj he).2

theorem createLevers_load_other (tid : Nat) :
    ∀ (count : Nat) (st : Store TokenControlLever) (k : String),
      (∀ j, j < count → k ≠ leverKey tid j) →
      (createLevers tid count st).load k = st.load k := by
  intro count
  induction count with
  | zero => intro st k _; rfl
  | succ c ih =>
    intro st k h
    unfold createLevers
    rw [Store.load_save_of_ne _ _ _ _ (h c (by omega))]
    exact ih st k (fun j hj => h j (by omega))

theorem createChildren_users (O : Source) (creator : String) (M : Nat) :
    ∀ (count : Nat) (s : State), (createChildren O creator M count s).users = s.users := by
  intro count
  induction count with
  | zero => intro s; rfl
  | succ c ih => intro s; simp [createChildren, ih]

theorem createChildren_bids (O : Source) (creator : String) (M : Nat) :
    ∀ (count : Nat) (s : State), (createChildren O creator M count s).bids = s.bids := by
  intro count
  induction count with
  | zero => intro s; rfl
  | succ c ih => intro s; simp [createChildren, ih]

theorem createChildren_sales (O : Source) (creator : String) (M : Nat) :
    ∀ (count : Nat) (s : State), (createChildren O creator M count s).sales = s.sales := by
  intro count
  induction count with
  | zero => intro s; rfl
  | succ c ih => intro s; simp [createChildren, ih]

theorem createChildren_globalState (O : Source) (creator : String) (M : Nat) :
    ∀ (count : Nat) (s : State),
      (createChildren O creator M count s).globalState = s.globalState := by
  intro count
  induction count with
  | zero => intro s; rfl
  | succ c ih => intro s; simp [createChildren, ih]

theorem createChildren_tokens_in (O : Source) (creator : String) (M : Nat) :
    ∀ (count : Nat) (s : State) (i : Nat), 1 ≤ i → i ≤ count →
      (createChildren O creator M count s).tokens.load (natStr (M + i))
        = some (defaultToken (natStr (M + i)) creator false) := by
  intro count
  induction count with
  | zero => intro s i h1 h2; omega
  | succ c ih =>
    intro s i h1 h2
    unfold createChildren
    by_cases hi : i = c + 1
    · subst hi
      have : M + (c + 1) = M + c + 1 := by omega
      rw [this]
      exact Store.load_save_self _ _ _
    · rw [Store.load_save_of_ne _ _ _ _ (natStr_inj_ne (by omega))]
      exact ih s i h1 (by omega)

theorem createChildren_tokens_other (O : Source) (creator : String) (M : Nat) :
    ∀ (count : Nat) (s : State) (k : String),
      (∀ i, 1 ≤ i → i ≤ count → k ≠ natStr (M + i)) →
      (createChildren O creator M count s).tokens.load k = s.tokens.load k := by
  intro count
  induction count with
  | zero => intro s k _; rfl
  | succ c ih =>
    intro s k h
    unfold createChildren
    have hk : k ≠ natStr (M + c + 1) := by
      have := h (c + 1) (by omega) (by omega)
      simpa [Nat.add_assoc] using this
    rw [Store.load_save_of_ne _ _ _ _ hk]
    exact ih s k (fun i h1 h2 => h i h1 (by omega))

theorem createChildren_controllers_in (O : Source) (creator : String) (M : Nat) :
    ∀ (count : Nat) (s : State) (i : Nat), 1 ≤ i → i ≤ count →
      (createChildren O creator M count s).controllers.load (controllerKey (M + i))
        = some (defaultController (M + i)) := by
  intro count
  induction count with
  | zero => intro s i h1 h2; omega
  | succ c ih =>
    intro s i h1 h2
    unfold createChildren
    by_cases hi : i = c + 1
    · subst hi
      have : M + (c + 1) = M + c + 1 := by omega
      rw [this]
      exact Store.load_save_self _ _ _
    · rw [Store.load_save_of_ne]
      · exact ih s i h1 (by omega)
      · intro he
        have := controllerKey_inj he
        omega

theorem createChildren_levers_in (O : Source) (creator : String) (M : Nat) :
    ∀ (count : Nat) (s : State) (i j : Nat), 1 ≤ i → i ≤ count → j < O.leversPerChild →
      (createChildren O creator M count s).levers.load (leverKey (M + i) j)
        = some (defaultLever (leverKey (M + i) j)) := by
  intro count
  induction count with
  | zero => intro s i j h1 h2 _; omega
  | succ c ih =>
    intro s i j h1 h2 hj
    unfold createChildren
    by_cases hi : i = c + 1
    · subst hi
      have : M + (c + 1) = M + c + 1 := by omega
      rw [this]
      exact createLevers_load_lt _ _ _ _ hj
    · rw [createLevers_load_other]
      · exact ih s i j h1 (by omega) hj
      · intro j' _ he
        have := (leverKey_inj he).1
        omega

theorem handleCreatorWhitelisted_eq (O : Source) (meta : EventMeta) (M N : Nat)
    (creator : String) (s : State) :
    (applyEvent O (.creatorWhitelisted meta M N creator) s).1
      = createTokensFromMasterTokenId O creator M N (creationState O M N s) := rfl

theorem createTokens_globalState (O : Source) (creator : String) (M N : Nat) (s : State) :
    (createTokensFromMasterTokenId O creator M N s).globalState = s.globalState := by
  unfold createTokensFromMasterTokenId
  rw [createChildren_globalState]
  exact createOrFetchUserString_globalState creator s

/-- Claim C9: a creation event with master id M and child count N creates the
master token (isMaster), the N child tokens with consecutive ids M+1..M+N
(non-master), one TokenController and the fixed lever set per child, and sets
the expected total token supply to M + N + 1. -/
theorem creation_event_populates_entities (O : Source) (meta : EventMeta)
    (M N : Nat) (creator : String) (s : State) :
    (∃ g, (applyEvent O (.creatorWhitelisted meta M N creator) s).1.globalState = some g ∧
      g.latestMasterTokenId = M ∧ g.currentExpectedTokenSupply = M + N + 1) ∧
    (∃ master, (applyEvent O (.creatorWhitelisted meta M N creator) s).1.tokens.load (natStr M)
        = some master ∧ master.isMaster = true) ∧
    (∀ i, 1 ≤ i → i ≤ N →
      (∃ child, (applyEvent O (.creatorWhitelisted meta M N creator) s).1.tokens.load
          (natStr (M + i)) = some child ∧ child.isMaster = false) ∧
      (∃ ctrl, (applyEvent O (.creatorWhitelisted meta M N creator) s).1.controllers.load
          (controllerKey (M + i)) = some ctrl ∧ ctrl.id = controllerKey (M + i) ∧
          ctrl.numberOfUpdates = 0) ∧
      (∀ j, j < O.leversPerChild →
        ∃ lv, (applyEvent O (.creatorWhitelisted meta M N creator) s).1.levers.load
            (leverKey (M + i) j) = some lv ∧ lv.id = leverKey (M + i) j)) := by
  rw [handleCreatorWhitelisted_eq]
  refine ⟨?_, ?_, ?_⟩
  · rw [createTokens_globalState]
    exact ⟨_, rfl, rfl, rfl⟩
  · refine ⟨defaultToken (natStr M) creator true, ?_, rfl⟩
    unfold createTokensFromMasterTokenId
    rw [createChildren_tokens_other]
    · exact Store.load_save_self _ _ _
    · intro i h1 _ he
      have := natStr_inj he
      omega
  · intro i h1 h2
    refine ⟨⟨defaultToken (natStr (M + i)) creator false, ?_, rfl⟩,
      ⟨defaultController (M + i), ?_, rfl, rfl⟩, ?_⟩
    · unfold createTokensFromMasterTokenId
      exact createChildren_tokens_in O creator M N _ i h1 h2
    · unfold createTokensFromMasterTokenId
      exact createChildren_controllers_in O creator M N _ i h1 h2
    · intro j hj
      unfold createTokensFromMasterTokenId
      exact ⟨defaultLever (leverKey (M + i) j),
        createChildren_levers_in O creator M N _ i j h1 h2 hj, rfl⟩

/-- Witness for C9: the scenario-D instance — creation event for master id 5
with child count 3 creates tokens 5..8, token 5 a master, tokens 6..8 children
with controller and lever records, and expected supply 9. -/
theorem creation_event_populates_entities_witness :
    ∃ child, (applyEvent oracle0 (.creatorWhitelisted (meta0 "0xc") 5 3 "0xartist")
        State.init).1.tokens.load (natStr 6) = some child ∧ child.isMaster = false := by
  obtain ⟨-, -, hch⟩ :=
    creation_event_populates_entities oracle0 (meta0 "0xc") 5 3 "0xartist" State.init
  obtain ⟨⟨child, hc1, hc2⟩, -, -⟩ := hch 1 (by decide) (by decide)
  exact ⟨child, hc1, hc2⟩

theorem getOrInitialiseToken_fst (O : Source) (s : State) (tid : Nat) :
    getOrInitialiseToken (getOrInitialiseGlobalState O s).1 tid = s.tokens.load (natStr tid) := by
  unfold getOrInitialiseToken
  rw [getOrInitialiseGlobalState_fst]

/-- Claim C10: a permission-update event changes the token's
permissionedAddress exactly when the granter named in the event is the token's
current owner; with any other granter the stored token record is left
unchanged in every field. -/
theorem permission_update_owner_gated (O : Source) (meta : EventMeta) (tid : Nat)
    (granter permissioned : String) (s : State) (t : Token)
    (htok : s.tokens.load (natStr tid) = some t) (hid : t.id = natStr tid) :
    (granter = t.owner →
      (applyEvent O (.permissionUpdated meta tid granter permissioned) s).1.tokens.load
          (natStr tid)
        = some { t with permissionedAddress := some permissioned }) ∧
    (granter ≠ t.owner →
      (applyEvent O (.permissionUpdated meta tid granter permissioned) s).1.tokens.load
          (natStr tid)
        = some t) := by
  have hload : getOrInitialiseToken (getOrInitialiseGlobalState O s).1 tid = some t := by
    rw [getOrInitialiseToken_fst]; exact htok
  constructor
  · intro hg
    show (handlePermissionUpdated O meta tid granter permissioned s).1.tokens.load (natStr tid) = _
    simp only [handlePermissionUpdated, hload, if_pos hg, reconcile_tokens]
    have hid2 : ({ t with permissionedAddress := some permissioned } : Token).id = natStr tid := hid
    rw [hid2]
    exact Store.load_save_self _ _ _
  · intro hg
    show (handlePermissionUpdated O meta tid granter permissioned s).1.tokens.load (natStr tid) = _
    simp only [handlePermissionUpdated, hload, if_neg hg, reconcile_tokens]
    rw [getOrInitialiseGlobalState_fst]
    exact htok

/-- Witness for C10: a permission update from a non-owner granter leaves the
freshly created master token record unchanged. -/
theorem permission_update_owner_gated_witness :
    (applyEvent oracle0 (.permissionUpdated (meta0 "0xp") 0 "0xz" "0xq") demoCreation).1.tokens.load
        (natStr 0) = some (defaultToken (natStr 0) "0xa" true) :=
  (permission_update_owner_gated oracle0 (meta0 "0xp") 0 "0xz" "0xq" demoCreation
    (defaultToken (natStr 0) "0xa" true) (by decide) (by decide)).2 (by decide)

theorem refreshGlobalState_tokens (O : Source) (s : State) :
    (refreshGlobalState O s).tokens = s.tokens := by
  rw [refreshGlobalState_eq]

theorem refreshGlobalState_bids (O : Source) (s : State) :
    (refreshGlobalState O s).bids = s.bids := by
  rw [refreshGlobalState_eq]

theorem refreshGlobalState_users (O : Source) (s : State) :
    (refreshGlobalState O s).users = s.users := by
  rw [refreshGlobalState_eq]

theorem refreshGlobalState_sales (O : Source) (s : State) :
    (refreshGlobalState O s).sales = s.sales := by
  rw [refreshGlobalState_eq]

theorem refreshGlobalState_controllers (O : Source) (s : State) :
    (refreshGlobalState O s).controllers = s.controllers := by
  rw [refreshGlobalState_eq]

theorem refreshGlobalState_levers (O : Source) (s : State) :
    (refreshGlobalState O s).levers = s.levers := by
  rw [refreshGlobalState_eq]

theorem getOrInitialiseToken_refresh (O : Source) (s : State) (tid : Nat) :
    getOrInitialiseToken (refreshGlobalState O s) tid = s.tokens.load (natStr tid) := by
  unfold getOrInitialiseToken
  rw [refreshGlobalState_tokens]

/-- Claim C7: withdrawing when the token's current bid loads as absent is
benign — the handler logs a warning and mutates no Bid and no Token record;
when the current bid exists, it is deactivated, stamped with the withdrawal
timestamp and archived on the token's historical bid list. -/
theorem bid_withdrawal_benign_absence (O : Source) (meta : EventMeta) (tid : Nat)
    (s : State) (t : Token)
    (htok : s.tokens.load (natStr tid) = some t) (hid : t.id = natStr tid) :
    (loadOpt s.bids t.currentBid = none →
      (applyEvent O (.bidWithdrawn meta tid) s).1.bids = s.bids ∧
      (applyEvent O (.bidWithdrawn meta tid) s).1.tokens = s.tokens ∧
      (applyEvent O (.bidWithdrawn meta tid) s).2
        = [(LogLevel.warning, "Bid should be defined")]) ∧
    (∀ kb b, t.currentBid = some kb → s.bids.load kb = some b → b.id = kb →
      (applyEvent O (.bidWithdrawn meta tid) s).1.bids.load kb
          = some { b with bidActive := false, bidWithdrawnTimestamp := some meta.timestamp } ∧
      (applyEvent O (.bidWithdrawn meta tid) s).1.tokens.load (natStr tid)
          = some { t with pastBids := t.pastBids ++ [kb] }) := by
  have hload : getOrInitialiseToken (refreshGlobalState O s) tid = some t := by
    rw [getOrInitialiseToken_refresh]; exact htok
  constructor
  · intro hnone
    refine ⟨?_, ?_, ?_⟩ <;>
      simp only [applyEvent, handleBidWithdrawn, hload, refreshGlobalState_bids,
        refreshGlobalState_tokens, hnone]
  · intro kb b hkb hb hbid
    have hsome2 : loadOpt s.bids t.currentBid = some b := by
      rw [hkb]; exact hb
    constructor
    · show (handleBidWithdrawn O meta tid s).1.bids.load kb = _
      simp only [handleBidWithdrawn, hload, refreshGlobalState_bids,
        refreshGlobalState_tokens, hsome2]
      rw [hbid]
      exact Store.load_save_self _ _ _
    · show (handleBidWithdrawn O meta tid s).1.tokens.load (natStr tid) = _
      simp only [handleBidWithdrawn, hload, refreshGlobalState_bids,
        refreshGlobalState_tokens, hsome2]
      rw [hbid, hid]
      exact Store.load_save_self _ _ _

/-- Witness for C7: withdrawing on the freshly created master token, which has
no current bid, leaves the bid and token stores untouched and logs exactly the
benign warning. -/
theorem bid_withdrawal_benign_absence_witness :
    (applyEvent oracle0 (.bidWithdrawn (meta0 "0xw") 0) demoCreation).1.bids
        = demoCreation.bids ∧
    (applyEvent oracle0 (.bidWithdrawn (meta0 "0xw") 0) demoCreation).1.tokens
        = demoCreation.tokens ∧
    (applyEvent oracle0 (.bidWithdrawn (meta0 "0xw") 0) demoCreation).2
        = [(LogLevel.warning, "Bid should be defined")] :=
  (bid_withdrawal_benign_absence oracle0 (meta0 "0xw") 0 demoCreation
    (defaultToken (natStr 0) "0xa" true) (by decide) (by decide)).1 (by decide)

theorem getOrInitialiseGlobalState_fst_tokens (O : Source) (s : State) :
    ((getOrInitialiseGlobalState O s).1).tokens = s.tokens := by
  rw [getOrInitialiseGlobalState_fst]

theorem getOrInitialiseGlobalState_fst_bids (O : Source) (s : State) :
    ((getOrInitialiseGlobalState O s).1).bids = s.bids := by
  rw [getOrInitialiseGlobalState_fst]

theorem getOrInitialiseGlobalState_fst_users (O : Source) (s : State) :
    ((getOrInitialiseGlobalState O s).1).users = s.users := by
  rw [getOrInitialiseGlobalState_fst]

theorem getOrInitialiseGlobalState_fst_sales (O : Source) (s : State) :
    ((getOrInitialiseGlobalState O s).1).sales = s.sales := by
  rw [getOrInitialiseGlobalState_fst]

theorem getOrInitialiseGlobalState_fst_controllers (O : Source) (s : State) :
    ((getOrInitialiseGlobalState O s).1).controllers = s.controllers := by
  rw [getOrInitialiseGlobalState_fst]

theorem getOrInitialiseGlobalState_fst_levers (O : Source) (s : State) :
    ((getOrInitialiseGlobalState O s).1).levers = s.levers := by
  rw [getOrInitialiseGlobalState_fst]

/-- Claim C6, corrected: when a non-creation event references a missing token,
the withdrawal, sale and lever-update handlers stop with a critical (fatal)
log entry, while the bid-proposal and buy-price handlers log only a warning
and skip the mutation; in every case the missing token is never fabricated and
the token store is left unchanged. -/
theorem missing_token_handling_severity (O : Source) (meta : EventMeta)
    (tid amount price tip rem : Nat) (lids pvs uvs : List Nat) (bidder buyer : String)
    (s : State) (h : s.tokens.load (natStr tid) = none) :
    ((applyEvent O (.bidProposed meta tid amount bidder) s).2
        = [(LogLevel.warning, "Bid on token that doesn't exist")] ∧
      (applyEvent O (.bidProposed meta tid amount bidder) s).1.tokens = s.tokens) ∧
    ((applyEvent O (.buyPriceSet meta tid price) s).2
        = [(LogLevel.warning, "Token should be defined")] ∧
      (applyEvent O (.buyPriceSet meta tid price) s).1.tokens = s.tokens) ∧
    ((applyEvent O (.bidWithdrawn meta tid) s).2
        = [(LogLevel.critical, "Token should be defined")] ∧
      (applyEvent O (.bidWithdrawn meta tid) s).1.tokens = s.tokens) ∧
    ((applyEvent O (.tokenSale meta tid price buyer) s).2
        = [(LogLevel.critical, "Token should be defined")] ∧
      (applyEvent O (.tokenSale meta tid price buyer) s).1.tokens = s.tokens) ∧
    ((applyEvent O (.controlLeverUpdated meta tid tip rem lids pvs uvs) s).2
        = [(LogLevel.critical, "Token should be defined")] ∧
      (applyEvent O (.controlLeverUpdated meta tid tip rem lids pvs uvs) s).1.tokens
        = s.tokens) := by
  refine ⟨⟨?_, ?_⟩, ⟨?_, ?_⟩, ⟨?_, ?_⟩, ⟨?_, ?_⟩, ⟨?_, ?_⟩⟩ <;>
    simp only [applyEvent, handleBidProposed, handleBuyPriceSet, handleBidWithdrawn,
      handleTokenSale, handleControlLeverUpdated, getOrInitialiseToken,
      createOrFetchUserString_tokens, refreshGlobalState_tokens,
      getOrInitialiseGlobalState_fst_tokens, h]

/-- Claim C6 counterexample: a bid proposal on a token that does not exist
logs only a warning — not the fatal consistency error the claim requires for
bid events — and the run continues with the token store unchanged. -/
theorem missing_token_bid_logs_warning_not_critical :
    (applyEvent oracle0 (.bidProposed (meta0 "0xh") 7 100 "0xb") State.init).2
        = [(LogLevel.warning, "Bid on token that doesn't exist")] ∧
    (applyEvent oracle0 (.bidProposed (meta0 "0xh") 7 100 "0xb") State.init).1.tokens.load
        (natStr 7) = none := by
  decide

/-- Claim C5 counterexample: a plain transfer of a token carrying an active
bid resets the buy price but leaves the token's currentBid reference set and
the bid record active and un-archived — the transfer handler neither clears
nor archives the bid. -/
theorem transfer_keeps_current_bid :
    ((applyEvent oracle0 (.transfer (meta0 "0xh2") 0 "0xa" "0xc") demoBid).1.tokens.load
        (natStr 0)).map (fun t => (t.currentBid, t.currentBuyPrice, t.pastBids))
      = some (some (bidKey 0 "0xh1"), 0, []) ∧
    ((applyEvent oracle0 (.transfer (meta0 "0xh2") 0 "0xa" "0xc") demoBid).1.bids.load
        (bidKey 0 "0xh1")).map (fun b => b.bidActive) = some true := by
  decide

/-- Claim C5, amended: a sale resets the token's buy price to zero, clears the
currentBid reference and archives the previously current bid (deactivated,
appended to the historical list, never deleted); a plain transfer resets the
buy price to zero but leaves the currentBid reference and the bid store
untouched. -/
theorem ownership_change_price_reset_and_bid_archival (O : Source) (meta : EventMeta)
    (tid price : Nat) (buyerAddr fromAddr toAddr : String) (s : State) (t : Token)
    (htok : s.tokens.load (natStr tid) = some t) (hid : t.id = natStr tid) :
    (∀ seller kb b, s.users.load t.owner = some seller → t.currentBid = some kb →
      s.bids.load kb = some b → b.id = kb →
      ((applyEvent O (.tokenSale meta tid price buyerAddr) s).1.tokens.load (natStr tid)).map
          (fun t3 => (t3.currentBuyPrice, t3.currentBid, t3.pastBids))
        = some (0, none, t.pastBids ++ [kb]) ∧
      ((applyEvent O (.tokenSale meta tid price buyerAddr) s).1.bids.load kb).map
          (fun b2 => b2.bidActive) = some false) ∧
    ((applyEvent O (.transfer meta tid fromAddr toAddr) s).1.bids = s.bids ∧
      ((applyEvent O (.transfer meta tid fromAddr toAddr) s).1.tokens.load (natStr tid)).map
          (fun t2 => (t2.currentBuyPrice, t2.currentBid)) = some (0, t.currentBid)) := by
  constructor
  · intro seller kb b hseller hkb hb hbidid
    have hsell2 : ((createOrFetchUserString buyerAddr
        ((getOrInitialiseGlobalState O s).1)).1).users.load t.owner = some seller := by
      apply createOrFetchUserString_users_load_of_some
      rw [getOrInitialiseGlobalState_fst_users]
      exact hseller
    have hb2 : loadOpt s.bids t.currentBid = some b := by
      rw [hkb]; exact hb
    by_cases hc : b.bidAmount = price ∧ buyerAddr = b.bidder
    · constructor
      · show ((handleTokenSale O meta tid price buyerAddr s).1.tokens.load (natStr tid)).map _
            = _
        simp only [handleTokenSale, getOrInitialiseToken,
          createOrFetchUserString_tokens, getOrInitialiseGlobalState_fst_tokens,
          createOrFetchUserString_bids, getOrInitialiseGlobalState_fst_bids, htok, hsell2,
          hb2, if_pos hc, reconcile_tokens]
        rw [hid, Store.load_save_self]
        simp [hbidid]
      · show ((handleTokenSale O meta tid price buyerAddr s).1.bids.load kb).map _ = _
        simp only [handleTokenSale, getOrInitialiseToken,
          createOrFetchUserString_tokens, getOrInitialiseGlobalState_fst_tokens,
          createOrFetchUserString_bids, getOrInitialiseGlobalState_fst_bids, htok, hsell2,
          hb2, if_pos hc, reconcile_bids]
        rw [hbidid, Store.load_save_self]
        rfl
    · constructor
      · show ((handleTokenSale O meta tid price buyerAddr s).1.tokens.load (natStr tid)).map _
            = _
        simp only [handleTokenSale, getOrInitialiseToken,
          createOrFetchUserString_tokens, getOrInitialiseGlobalState_fst_tokens,
          createOrFetchUserString_bids, getOrInitialiseGlobalState_fst_bids, htok, hsell2,
          hb2, if_neg hc, reconcile_tokens]
        rw [hid, Store.load_save_self]
        simp [hbidid]
      · show ((handleTokenSale O meta tid price buyerAddr s).1.bids.load kb).map _ = _
        simp only [handleTokenSale, getOrInitialiseToken,
          createOrFetchUserString_tokens, getOrInitialiseGlobalState_fst_tokens,
          createOrFetchUserString_bids, getOrInitialiseGlobalState_fst_bids, htok, hsell2,
          hb2, if_neg hc, reconcile_bids]
        rw [hbidid, Store.load_save_self]
        rfl
  · constructor
    · show (handleTransfer O meta tid fromAddr toAddr s).1.bids = s.bids
      simp only [handleTransfer, getOrInitialiseToken, createOrFetchUserString_tokens,
        refreshGlobalState_tokens, htok, reconcile_bids, createOrFetchUserString_bids,
        refreshGlobalState_bids]
    · show ((handleTransfer O meta tid fromAddr toAddr s).1.tokens.load (natStr tid)).map _ = _
      simp only [handleTransfer, getOrInitialiseToken, createOrFetchUserString_tokens,
        refreshGlobalState_tokens, htok, reconcile_tokens]
      rw [hid, Store.load_save_self]
      rfl

/-- Witness for the amended C5: selling token 0 of `demoBid` (active bid of
100 by 0xb) to buyer 0xb at price 100 clears and archives the bid, and resets
the buy price. -/
theorem ownership_change_price_reset_witness :
    ((applyEvent oracle0 (.tokenSale (meta0 "0xh3") 0 100 "0xb") demoBid).1.tokens.load
        (natStr 0)).map (fun t3 => (t3.currentBuyPrice, t3.currentBid, t3.pastBids))
      = some (0, none, demoBidToken.pastBids ++ [bidKey 0 "0xh1"]) := by
  obtain ⟨hsale, -⟩ :=
    (ownership_change_price_reset_and_bid_archival oracle0 (meta0 "0xh3") 0 100 "0xb" "0xa"
      "0xc" demoBid demoBidToken (by decide) (by decide)).1
      (emptyUser "0xa") (bidKey 0 "0xh1") demoBidBid (by decide) (by decide) (by decide)
      (by decide)
  exact hsale

/-- Witness for the amended C6: withdrawing a bid on a missing token is a
critical (fatal) error, while proposing a bid on a missing token only warns. -/
theorem missing_token_handling_severity_witness :
    ((applyEvent oracle0 (.bidWithdrawn (meta0 "0xh") 7) State.init).2
        = [(LogLevel.critical, "Token should be defined")] ∧
      (applyEvent oracle0 (.bidWithdrawn (meta0 "0xh") 7) State.init).1.tokens
        = State.init.tokens) :=
  (missing_token_handling_severity oracle0 (meta0 "0xh") 7 0 0 0 0 [] [] [] "0xb" "0xb"
    State.init (by decide)).2.2.1

/-- Claim C3: a sale on a token with a current bid is classified as a bid sale
(isBidSale true, bid accepted, sale referencing the bid) exactly when the
bid's amount equals the sale price and the bid's bidder equals the buyer; on
any mismatch, and when no current bid exists, the sale stays a direct sale and
the bid, if any, is deactivated and archived without being accepted. -/
theorem sale_bid_acceptance_iff (O : Source) (meta : EventMeta) (tid price : Nat)
    (buyerAddr : String) (s : State) (t : Token) (seller : User)
    (htok : s.tokens.load (natStr tid) = some t) (hid : t.id = natStr tid)
    (hseller : s.users.load t.owner = some seller) :
    (∀ kb b, t.currentBid = some kb → s.bids.load kb = some b → b.id = kb →
        b.bidAccepted = false →
      ((applyEvent O (.tokenSale meta tid price buyerAddr) s).1.sales.load
          (saleKey tid (t.numberOfSales + 1))).map (fun sl => (sl.isBidSale, sl.bidDetails))
        = some (if b.bidAmount = price ∧ buyerAddr = b.bidder then (true, some kb)
            else (false, none)) ∧
      ((applyEvent O (.tokenSale meta tid price buyerAddr) s).1.bids.load kb).map
          (fun b2 => (b2.bidAccepted, b2.bidActive))
        = some (if b.bidAmount = price ∧ buyerAddr = b.bidder then (true, false)
            else (false, false)) ∧
      ((applyEvent O (.tokenSale meta tid price buyerAddr) s).1.tokens.load (natStr tid)).map
          (fun t3 => t3.pastBids) = some (t.pastBids ++ [kb])) ∧
    (loadOpt s.bids t.currentBid = none →
      ((applyEvent O (.tokenSale meta tid price buyerAddr) s).1.sales.load
          (saleKey tid (t.numberOfSales + 1))).map (fun sl => (sl.isBidSale, sl.bidDetails))
        = some (false, none) ∧
      (applyEvent O (.tokenSale meta tid price buyerAddr) s).1.bids = s.bids) := by
  have hsell2 : ((createOrFetchUserString buyerAddr
      ((getOrInitialiseGlobalState O s).1)).1).users.load t.owner = some seller := by
    apply createOrFetchUserString_users_load_of_some
    rw [getOrInitialiseGlobalState_fst_users]
    exact hseller
  constructor
  · intro kb b hkb hb hbidid hacc
    have hb2 : loadOpt s.bids t.currentBid = some b := by
      rw [hkb]; exact hb
    by_cases hc : b.bidAmount = price ∧ buyerAddr = b.bidder
    · refine ⟨?_, ?_, ?_⟩
      · show ((handleTokenSale O meta tid price buyerAddr s).1.sales.load _).map _ = _
        simp only [handleTokenSale, getOrInitialiseToken, createOrFetchUserString_tokens,
          getOrInitialiseGlobalState_fst_tokens, createOrFetchUserString_bids,
          getOrInitialiseGlobalState_fst_bids, createOrFetchUserString_sales,
          getOrInitialiseGlobalState_fst_sales, htok, hsell2, hb2, if_pos hc, reconcile_sales]
        rw [Store.load_save_self]
        simp [hbidid, if_pos hc]
      · show ((handleTokenSale O meta tid price buyerAddr s).1.bids.load kb).map _ = _
        simp only [handleTokenSale, getOrInitialiseToken, createOrFetchUserString_tokens,
          getOrInitialiseGlobalState_fst_tokens, createOrFetchUserString_bids,
          getOrInitialiseGlobalState_fst_bids, htok, hsell2, hb2, if_pos hc, reconcile_bids]
        rw [hbidid, Store.load_save_self]
        simp [if_pos hc]
      · show ((handleTokenSale O meta tid price buyerAddr s).1.tokens.load (natStr tid)).map _
            = _
        simp only [handleTokenSale, getOrInitialiseToken, createOrFetchUserString_tokens,
          getOrInitialiseGlobalState_fst_tokens, createOrFetchUserString_bids,
          getOrInitialiseGlobalState_fst_bids, htok, hsell2, hb2, if_pos hc, reconcile_tokens]
        rw [hid, Store.load_save_self]
        simp [hbidid]
    · refine ⟨?_, ?_, ?_⟩
      · show ((handleTokenSale O meta tid price buyerAddr s).1.sales.load _).map _ = _
        simp only [handleTokenSale, getOrInitialiseToken, createOrFetchUserString_tokens,
          getOrInitialiseGlobalState_fst_tokens, createOrFetchUserString_bids,
          getOrInitialiseGlobalState_fst_bids, createOrFetchUserString_sales,
          getOrInitialiseGlobalState_fst_sales, htok, hsell2, hb2, if_neg hc, reconcile_sales]
        rw [Store.load_save_self]
        simp [if_neg hc]
      · show ((handleTokenSale O meta tid price buyerAddr s).1.bids.load kb).map _ = _
        simp only [handleTokenSale, getOrInitialiseToken, createOrFetchUserString_tokens,
          getOrInitialiseGlobalState_fst_tokens, createOrFetchUserString_bids,
          getOrInitialiseGlobalState_fst_bids, htok, hsell2, hb2, if_neg hc, reconcile_bids]
        rw [hbidid, Store.load_save_self]
        simp [if_neg hc, hacc]
      · show ((handleTokenSale O meta tid price buyerAddr s).1.tokens.load (natStr tid)).map _
            = _
        simp only [handleTokenSale, getOrInitialiseToken, createOrFetchUserString_tokens,
          getOrInitialiseGlobalState_fst_tokens, createOrFetchUserString_bids,
          getOrInitialiseGlobalState_fst_bids, htok, hsell2, hb2, if_neg hc, reconcile_tokens]
        rw [hid, Store.load_save_self]
        simp [hbidid]
  · intro hnone
    have hnone2 : loadOpt s.bids t.currentBid = none := hnone
    constructor
    · show ((handleTokenSale O meta tid price buyerAddr s).1.sales.load _).map _ = _
      simp only [handleTokenSale, getOrInitialiseToken, createOrFetchUserString_tokens,
        getOrInitialiseGlobalState_fst_tokens, createOrFetchUserString_bids,
        getOrInitialiseGlobalState_fst_bids, createOrFetchUserString_sales,
        getOrInitialiseGlobalState_fst_sales, htok, hsell2, hnone2, reconcile_sales]
      rw [Store.load_save_self]
      rfl
    · show (handleTokenSale O meta tid price buyerAddr s).1.bids = s.bids
      simp only [handleTokenSale, getOrInitialiseToken, createOrFetchUserString_tokens,
        getOrInitialiseGlobalState_fst_tokens, createOrFetchUserString_bids,
        getOrInitialiseGlobalState_fst_bids, htok, hsell2, hnone2, reconcile_bids]

/-- Witness for C3, scenario B: selling token 0 of `demoBid` (active bid 100
by 0xb) to buyer 0xb at price 100 yields a bid sale referencing the bid. -/
theorem sale_bid_acceptance_iff_witness :
    ((applyEvent oracle0 (.tokenSale (meta0 "0xh3") 0 100 "0xb") demoBid).1.sales.load
        (saleKey 0 1)).map (fun sl => (sl.isBidSale, sl.bidDetails))
      = some (true, some (bidKey 0 "0xh1")) := by
  obtain ⟨hsale, -, -⟩ :=
    (sale_bid_acceptance_iff oracle0 (meta0 "0xh3") 0 100 "0xb" demoBid demoBidToken
      (emptyUser "0xa") (by decide) (by decide) (by decide)).1 (bidKey 0 "0xh1") demoBidBid
      (by decide) (by decide) (by decide) (by decide)
  exact hsale.trans (by decide)

/-- Claim C2 counterexample: applying batch costs 3, 0, 0 to a fresh
controller leaves a stored average of 0, while the arithmetic mean
(3+0+0)/3 to integer-division precision is 1 — the incrementally maintained
integer average is not sum(c1..cn)/n. -/
theorem running_average_not_plain_mean :
    ((applyEvents oracle0 State.init
        [.creatorWhitelisted (meta0 "0xc") 0 1 "0xa",
         .controlLeverUpdated (metaGas "0xg1" 3 1) 1 0 5 [] [] [],
         .controlLeverUpdated (metaGas "0xg2" 0 0) 1 0 5 [] [] [],
         .controlLeverUpdated (metaGas "0xg3" 0 0) 1 0 5 [] [] []]).controllers.load
        (controllerKey 1)).map (fun c => (c.numberOfUpdates, c.averageUpdateCost))
      = some (3, 0) ∧ (3 + 0 + 0) / 3 = 1 := by
  decide

theorem applyLevers_ok (tid : Nat) (uid : String) :
    ∀ (pvs lids uvs : List Nat) (levers : Store TokenControlLever) (acc : List String),
      lids.length = pvs.length → uvs.length = pvs.length →
      (∀ l ∈ lids, (levers.load (leverKey tid l)).isSome = true) →
      ∃ levers' acc', applyLevers tid uid levers acc pvs lids uvs = some (levers', acc') ∧
        ∀ k, (levers.load k).isSome = true → (levers'.load k).isSome = true := by
  intro pvs
  induction pvs with
  | nil =>
    intro lids uvs levers acc h1 h2 _
    cases lids with
    | nil =>
      cases uvs with
      | nil => exact ⟨levers, acc, rfl, fun k hk => hk⟩
      | cons u us => simp at h2
    | cons l ls =>
      cases uvs <;> exact ⟨levers, acc, rfl, fun k hk => hk⟩
  | cons pv pvs ih =>
    intro lids uvs levers acc h1 h2 hl
    cases lids with
    | nil => simp at h1
    | cons l ls =>
      cases uvs with
      | nil => simp at h2
      | cons uv us =>
        have hsome : (levers.load (leverKey tid l)).isSome = true :=
          hl l (List.mem_cons_self l ls)
        cases hlv : levers.load (leverKey tid l) with
        | none => rw [hlv] at hsome; cases hsome
        | some lever =>
          have hl' : ∀ a ∈ ls, ((levers.save lever.id { lever with previousValue := pv, currentValue := uv, latestUpdate := some uid, numberOfUpdates := lever.numberOfUpdates + 1 }).load (leverKey tid a)).isSome = true := by
            intro a ha
            exact Store.load_isSome_save _ _ _ _ (hl a (List.mem_cons_of_mem l ha))
          obtain ⟨levers', acc', heq, hpres⟩ :=
            ih ls us (levers.save lever.id { lever with previousValue := pv, currentValue := uv, latestUpdate := some uid, numberOfUpdates := lever.numberOfUpdates + 1 })
              (acc ++ [lever.id]) (by simpa using h1) (by simpa using h2) hl'
          refine ⟨levers', acc', ?_, ?_⟩
          · show applyLevers tid uid levers acc (pv :: pvs) (l :: ls) (uv :: us) = _
            unfold applyLevers
            rw [hlv]
            exact heq
          · intro k hk
            exact hpres k (Store.load_isSome_save _ _ _ _ hk)

theorem handleControlLever_step (O : Source) (meta : EventMeta)
    (tid tip rem : Nat) (lids pvs uvs : List Nat) (s : State) (c : TokenController) (t : Token)
    (hctrl : s.controllers.load (controllerKey tid) = some c)
    (hcid : c.id = controllerKey tid)
    (htok : s.tokens.load (natStr tid) = some t)
    (hlev : leversReady O tid s)
    (hlen1 : lids.length = pvs.length) (hlen2 : uvs.length = pvs.length)
    (hlids : ∀ l ∈ lids, l < O.leversPerChild) :
    ((applyEvent O (.controlLeverUpdated meta tid tip rem lids pvs uvs) s).1.controllers.load
        (controllerKey tid)).map (fun c2 => (c2.id, c2.numberOfUpdates, c2.averageUpdateCost))
      = some (controllerKey tid, c.numberOfUpdates + 1,
          updateAverage c.averageUpdateCost c.numberOfUpdates (meta.gasUsed * meta.gasPrice)) ∧
    (applyEvent O (.controlLeverUpdated meta tid tip rem lids pvs uvs) s).1.tokens.load
      (natStr tid) = some t ∧
    leversReady O tid (applyEvent O (.controlLeverUpdated meta tid tip rem lids pvs uvs) s).1 := by
  have hl : ∀ l ∈ lids,
      ((refreshGlobalState O s).levers.load (leverKey tid l)).isSome = true := by
    intro l hmem
    rw [refreshGlobalState_levers]
    exact hlev l (hlids l hmem)
  obtain ⟨levers', acc', heq, hpres⟩ :=
    applyLevers_ok tid (layerUpdateKey tid (c.numberOfUpdates + 1)) pvs lids uvs
      (refreshGlobalState O s).levers [] hlen1 hlen2 hl
  have hctrl1 : (refreshGlobalState O s).controllers.load (controllerKey tid) = some c := by
    rw [refreshGlobalState_controllers]; exact hctrl
  have htok1 : getOrInitialiseToken (refreshGlobalState O s) tid = some t := by
    rw [getOrInitialiseToken_refresh]; exact htok
  refine ⟨?_, ?_, ?_⟩
  · show ((handleControlLeverUpdated O meta tid tip rem lids pvs uvs s).1.controllers.load
        (controllerKey tid)).map _ = _
    by_cases hz : c.numberOfUpdates = 0
    · simp only [handleControlLeverUpdated, htok1, hctrl1, heq, if_pos hz, hcid]
      rw [Store.load_save_self]
      simp [updateAverage, hz]
    · simp only [handleControlLeverUpdated, htok1, hctrl1, heq, if_neg hz, hcid]
      rw [Store.load_save_self]
      simp [updateAverage, hz]
  · show (handleControlLeverUpdated O meta tid tip rem lids pvs uvs s).1.tokens.load
        (natStr tid) = some t
    by_cases hz : c.numberOfUpdates = 0 <;>
      [simp only [handleControlLeverUpdated, htok1, hctrl1, heq, if_pos hz];
        simp only [handleControlLeverUpdated, htok1, hctrl1, heq, if_neg hz]] <;>
      rw [refreshGlobalState_tokens, Store.load_save] <;>
      split <;> simp_all
  · show leversReady O tid (handleControlLeverUpdated O meta tid tip rem lids pvs uvs s).1
    intro j hj
    by_cases hz : c.numberOfUpdates = 0 <;>
      [simp only [handleControlLeverUpdated, htok1, hctrl1, heq, if_pos hz];
        simp only [handleControlLeverUpdated, htok1, hctrl1, heq, if_neg hz]] <;>
      · apply hpres
        rw [refreshGlobalState_levers]
        exact hlev j hj

theorem leverRun (O : Source) (tid : Nat) :
    ∀ (batches : List LeverBatch) (s : State) (c : TokenController) (t : Token),
      s.controllers.load (controllerKey tid) = some c → c.id = controllerKey tid →
      s.tokens.load (natStr tid) = some t → leversReady O tid s →
      (∀ b ∈ batches, b.ok O) →
      ∃ c', (applyEvents O s (batches.map (LeverBatch.toEvent tid))).controllers.load
          (controllerKey tid) = some c' ∧
        c'.id = controllerKey tid ∧
        c'.numberOfUpdates = c.numberOfUpdates + batches.length ∧
        c'.averageUpdateCost = (runningAverageFrom (c.averageUpdateCost, c.numberOfUpdates)
          (batches.map LeverBatch.cost)).1 := by
  intro batches
  induction batches with
  | nil =>
    intro s c t hctrl hcid htok _ _
    exact ⟨c, hctrl, hcid, rfl, rfl⟩
  | cons b rest ih =>
    intro s c t hctrl hcid htok hlev hok
    obtain ⟨hb1, hb2, hb3⟩ := hok b (List.mem_cons_self b rest)
    obtain ⟨hmap, htok2, hlev2⟩ :=
      handleControlLever_step O b.meta tid b.priorityTip b.numRemainingUpdates
        b.leverIds b.previousValues b.updatedValues s c t hctrl hcid htok hlev hb1 hb2 hb3
    cases hc2 : (applyEvent O (LeverBatch.toEvent tid b) s).1.controllers.load
        (controllerKey tid) with
    | none =>
      rw [show (LeverBatch.toEvent tid b)
          = .controlLeverUpdated b.meta tid b.priorityTip b.numRemainingUpdates
            b.leverIds b.previousValues b.updatedValues from rfl] at hc2
      rw [hc2] at hmap
      cases hmap
    | some c2 =>
      rw [show (LeverBatch.toEvent tid b)
          = .controlLeverUpdated b.meta tid b.priorityTip b.numRemainingUpdates
            b.leverIds b.previousValues b.updatedValues from rfl] at hc2
      rw [hc2] at hmap
      have hfields := Option.some.inj hmap
      have hc2id : c2.id = controllerKey tid := congrArg Prod.fst hfields
      have hc2n : c2.numberOfUpdates = c.numberOfUpdates + 1 :=
        congrArg (fun q => q.2.1) hfields
      have hc2avg : c2.averageUpdateCost
          = updateAverage c.averageUpdateCost c.numberOfUpdates
              (b.meta.gasUsed * b.meta.gasPrice) :=
        congrArg (fun q => q.2.2) hfields
      obtain ⟨c', hc', hc'id, hc'n, hc'avg⟩ :=
        ih (applyEvent O (LeverBatch.toEvent tid b) s).1 c2 t hc2 hc2id htok2 hlev2
          (fun b' hb' => hok b' (List.mem_cons_of_mem b hb'))
      refine ⟨c', ?_, hc'id, ?_, ?_⟩
      · exact hc'
      · rw [hc'n, hc2n, List.length_cons]
        omega
      · rw [hc'avg, hc2n, hc2avg]
        rfl

/-- Claim C2, amended: the controller's average update cost is maintained
incrementally as newAvg = (oldAvg*oldCount + newCost) / (oldCount+1) with
integer division at every step (oldCount = 0 sets the average directly to the
cost), i.e. it equals the fold of `updateAverage` over the batch costs; in
particular after the first update the average equals c1 exactly, not 0.
Because the division rounds at every step, the stored value is this
incremental average and not in general sum(c1..cn)/n. -/
theorem running_average_incremental (O : Source) (tid : Nat) (batches : List LeverBatch)
    (s : State) (c : TokenController) (t : Token)
    (hctrl : s.controllers.load (controllerKey tid) = some c)
    (hcid : c.id = controllerKey tid) (hcount : c.numberOfUpdates = 0)
    (havg : c.averageUpdateCost = 0)
    (htok : s.tokens.load (natStr tid) = some t)
    (hlev : leversReady O tid s)
    (hok : ∀ b ∈ batches, b.ok O) :
    ∃ c', (applyEvents O s (batches.map (LeverBatch.toEvent tid))).controllers.load
        (controllerKey tid) = some c' ∧
      c'.numberOfUpdates = batches.length ∧
      c'.averageUpdateCost = runningAverage (batches.map LeverBatch.cost) ∧
      (∀ b1, batches = [b1] → c'.averageUpdateCost = b1.cost) := by
  obtain ⟨c', hc', _, hc'n, hc'avg⟩ :=
    leverRun O tid batches s c t hctrl hcid htok hlev hok
  refine ⟨c', hc', by rw [hc'n, hcount]; omega, ?_, ?_⟩
  · rw [hc'avg, havg, hcount]
    rfl
  · intro b1 hb1
    subst hb1
    rw [hc'avg, havg, hcount]
    simp [runningAverageFrom, updateAverage]

/-- Witness for the amended C2: scenario C — batch costs 10, 20, 30 on the
fresh controller of token 1 leave a stored average of 20 = fold of the
incremental formula. -/
theorem running_average_incremental_witness :
    ∃ c', (applyEvents oracle0 demoCreation
        (demoBatches.map (LeverBatch.toEvent 1))).controllers.load (controllerKey 1)
        = some c' ∧
      c'.numberOfUpdates = 3 ∧
      c'.averageUpdateCost = runningAverage (demoBatches.map LeverBatch.cost) := by
  obtain ⟨c', h1, h2, h3, -⟩ :=
    running_average_incremental oracle0 1 demoBatches demoCreation (defaultController 1)
      (defaultToken (natStr 1) "0xa" false) (by decide) (by decide) (by decide) (by decide)
      (by decide) (by decide) (by decide)
  exact ⟨c', h1, h2, h3⟩

theorem bidStoresOk_congr (s s' : State) (hb : s'.bids = s.bids) (ht : s'.tokens = s.tokens)
    (h : BidStoresOk s) : BidStoresOk s' := by
  obtain ⟨h1, h2, h3⟩ := h
  refine ⟨?_, ?_, ?_⟩
  · intro k b hk
    exact h1 k b (by rw [← hb]; exact hk)
  · intro tid t hk
    exact h2 tid t (by rw [← ht]; exact hk)
  · intro k b hk hact
    obtain ⟨t, ht0, hc0⟩ := h3 k b (by rw [← hb]; exact hk) hact
    exact ⟨t, by rw [ht]; exact ht0, hc0⟩

theorem createChildren_tokens_id (O : Source) (creator : String) (M : Nat) :
    ∀ (count : Nat) (s : State), (∀ k t, s.tokens.load k = some t → t.id = k) →
      ∀ k t, (createChildren O creator M count s).tokens.load k = some t → t.id = k := by
  intro count
  induction count with
  | zero => intro s h; exact h
  | succ c ih =>
    intro s h k t hk
    unfold createChildren at hk
    rw [Store.load_save] at hk
    split at hk
    · rename_i hkey
      cases hk
      exact hkey.symm
    · exact ih s h k t hk

theorem bidInv_after_creation (O : Source) (meta : EventMeta) (M N : Nat) (creator : String) :
    BidStoresOk (applyEvent O (.creatorWhitelisted meta M N creator) State.init).1 := by
  rw [handleCreatorWhitelisted_eq]
  have hbids : (createTokensFromMasterTokenId O creator M N (creationState O M N State.init)).bids
      = [] := by
    unfold createTokensFromMasterTokenId
    rw [createChildren_bids, createOrFetchUserString_bids]
    rfl
  refine ⟨?_, ?_, ?_⟩
  · intro k b hk
    rw [hbids] at hk
    cases hk
  · intro tid t hk
    have hids : ∀ k t, (createTokensFromMasterTokenId O creator M N
        (creationState O M N State.init)).tokens.load k = some t → t.id = k := by
      unfold createTokensFromMasterTokenId
      apply createChildren_tokens_id
      intro k t hk2
      rw [Store.load_save] at hk2
      split at hk2
      · rename_i hkey
        cases hk2
        exact hkey.symm
      · rw [createOrFetchUserString_tokens] at hk2
        cases hk2
    exact hids (natStr tid) t hk
  · intro k b hk
    rw [hbids] at hk
    cases hk

theorem bidInv_preserve_propose (O : Source) (meta : EventMeta) (tid amt : Nat)
    (bidder : String) (s : State) (h : BidStoresOk s) :
    BidStoresOk (applyEvent O (.bidProposed meta tid amt bidder) s).1 := by
  obtain ⟨h1, h2, h3⟩ := h
  show BidStoresOk (handleBidProposed O meta tid amt bidder s).1
  cases htok : s.tokens.load (natStr tid) with
  | none =>
    refine bidStoresOk_congr s _ ?_ ?_ ⟨h1, h2, h3⟩
    · simp only [handleBidProposed, getOrInitialiseToken_fst, htok,
        createOrFetchUserString_bids, getOrInitialiseGlobalState_fst_bids]
    · simp only [handleBidProposed, getOrInitialiseToken_fst, htok,
        createOrFetchUserString_tokens, getOrInitialiseGlobalState_fst_tokens]
  | some t =>
    have hidt : t.id = natStr tid := h2 tid t htok
    have hsv : ∀ (tok : Token) (st : Store Token),
        (Store.save st t.id tok).load (natStr tid) = some tok := by
      intro tok st
      rw [hidt]
      exact Store.load_save_self _ _ _
    cases hob : loadOpt s.bids t.currentBid with
    | none =>
      simp only [handleBidProposed, getOrInitialiseToken_fst, htok,
        createOrFetchUserString_bids, getOrInitialiseGlobalState_fst_bids,
        createOrFetchUserString_tokens, getOrInitialiseGlobalState_fst_tokens, hob]
      refine bidStoresOk_congr _ _ (reconcile_bids _) (reconcile_tokens _) ?_
      refine ⟨?_, ?_, ?_⟩
      · intro k b hk
        simp only [Store.load_save] at hk
        split at hk
        · cases hk
          rename_i hkey
          exact hkey.symm
        · exact h1 k b hk
      · intro tid' t' hk
        simp only [hidt, Store.load_save] at hk
        split at hk
        · cases hk
          rename_i hkey
          exact hkey.symm
        · exact h2 tid' t' hk
      · intro k b hk hact
        simp only [Store.load_save] at hk
        split at hk
        · rename_i hkey
          cases hk
          subst hkey
          exact ⟨_, hsv _ s.tokens, rfl⟩
        · rename_i hkey
          obtain ⟨t0, ht0, hc0⟩ := h3 k b hk hact
          by_cases hd : b.tokenDetails = natStr tid
          · exfalso
            rw [hd, htok] at ht0
            cases ht0
            rw [hc0] at hob
            simp only [loadOpt] at hob
            rw [hob] at hk
            cases hk
          · refine ⟨t0, ?_, hc0⟩
            show (Store.save s.tokens t.id _).load b.tokenDetails = _
            rw [hidt, Store.load_save_of_ne _ _ _ _ hd]
            exact ht0
    | some ob =>
      cases hcb : t.currentBid with
      | none =>
        rw [hcb] at hob
        simp only [loadOpt] at hob
        exact Option.noConfusion hob
      | some k0 =>
        rw [hcb] at hob
        simp only [loadOpt] at hob
        have hobid : ob.id = k0 := h1 k0 ob hob
        have hob2 : loadOpt s.bids t.currentBid = some ob := by
          rw [hcb]
          simp only [loadOpt]
          exact hob
        simp only [handleBidProposed, getOrInitialiseToken_fst, htok,
          createOrFetchUserString_bids, getOrInitialiseGlobalState_fst_bids,
          createOrFetchUserString_tokens, getOrInitialiseGlobalState_fst_tokens, hob2]
        refine bidStoresOk_congr _ _ (reconcile_bids _) (reconcile_tokens _) ?_
        refine ⟨?_, ?_, ?_⟩
        · intro k b hk
          simp only [Store.load_save] at hk
          split at hk
          · cases hk
            rename_i hkey
            exact hkey.symm
          · split at hk
            · cases hk
              rename_i hkey hkey2
              exact hkey2.symm
            · exact h1 k b hk
        · intro tid' t' hk
          simp only [hidt, Store.load_save] at hk
          split at hk
          · cases hk
            rename_i hkey
            exact hkey.symm
          · exact h2 tid' t' hk
        · intro k b hk hact
          simp only [Store.load_save] at hk
          split at hk
          · rename_i hkey
            cases hk
            subst hkey
            exact ⟨_, hsv _ s.tokens, rfl⟩
          · rename_i hkey
            split at hk
            · cases hk
              simp at hact
            · rename_i hkey2
              obtain ⟨t0, ht0, hc0⟩ := h3 k b hk hact
              by_cases hd : b.tokenDetails = natStr tid
              · exfalso
                rw [hd, htok] at ht0
                cases ht0
                rw [hcb] at hc0
                have hk0k : k0 = k := Option.some.inj hc0
                subst hk0k
                rw [hob] at hk
                cases hk
                exact hkey2 hobid.symm
              · refine ⟨t0, ?_, hc0⟩
                show (Store.save s.tokens t.id _).load b.tokenDetails = _
                rw [hidt, Store.load_save_of_ne _ _ _ _ hd]
                exact ht0

theorem bidInv_preserve_withdraw (O : Source) (meta : EventMeta) (tid : Nat)
    (s : State) (h : BidStoresOk s) :
    BidStoresOk (applyEvent O (.bidWithdrawn meta tid) s).1 := by
  obtain ⟨h1, h2, h3⟩ := h
  show BidStoresOk (handleBidWithdrawn O meta tid s).1
  cases htok : s.tokens.load (natStr tid) with
  | none =>
    refine bidStoresOk_congr s _ ?_ ?_ ⟨h1, h2, h3⟩
    · simp only [handleBidWithdrawn, getOrInitialiseToken_refresh, htok,
        refreshGlobalState_bids]
    · simp only [handleBidWithdrawn, getOrInitialiseToken_refresh, htok,
        refreshGlobalState_tokens]
  | some t =>
    have hidt : t.id = natStr tid := h2 tid t htok
    cases hob : loadOpt s.bids t.currentBid with
    | none =>
      refine bidStoresOk_congr s _ ?_ ?_ ⟨h1, h2, h3⟩
      · simp only [handleBidWithdrawn, getOrInitialiseToken_refresh, htok,
          refreshGlobalState_bids, hob]
      · simp only [handleBidWithdrawn, getOrInitialiseToken_refresh, htok,
          refreshGlobalState_bids, hob, refreshGlobalState_tokens]
    | some b0 =>
      cases hcb : t.currentBid with
      | none =>
        rw [hcb] at hob
        simp only [loadOpt] at hob
        exact Option.noConfusion hob
      | some k0 =>
        rw [hcb] at hob
        simp only [loadOpt] at hob
        have hobid : b0.id = k0 := h1 k0 b0 hob
        have hob2 : loadOpt s.bids t.currentBid = some b0 := by
          rw [hcb]
          simp only [loadOpt]
          exact hob
        simp only [handleBidWithdrawn, getOrInitialiseToken_refresh, htok, hob2,
          refreshGlobalState_bids, refreshGlobalState_tokens]
        refine ⟨?_, ?_, ?_⟩
        · intro k b hk
          simp only [Store.load_save] at hk
          split at hk
          · cases hk
            rename_i hkey
            exact hkey.symm
          · exact h1 k b hk
        · intro tid' t' hk
          simp only [hidt, Store.load_save] at hk
          split at hk
          · cases hk
            rename_i hkey
            exact hkey.symm
          · exact h2 tid' t' hk
        · intro k b hk hact
          simp only [Store.load_save] at hk
          split at hk
          · cases hk
            simp at hact
          · rename_i hkey
            obtain ⟨t0, ht0, hc0⟩ := h3 k b hk hact
            by_cases hd : b.tokenDetails = natStr tid
            · exfalso
              rw [hd, htok] at ht0
              cases ht0
              rw [hcb] at hc0
              have hk0k : k0 = k := Option.some.inj hc0
              subst hk0k
              exact hkey hobid.symm
            · refine ⟨t0, ?_, hc0⟩
              show (Store.save s.tokens t.id _).load b.tokenDetails = _
              rw [hidt, Store.load_save_of_ne _ _ _ _ hd]
              exact ht0

theorem bidInv_preserve_sale (O : Source) (meta : EventMeta) (tid price : Nat)
    (buyerAddr : String) (s : State) (h : BidStoresOk s) :
    BidStoresOk (applyEvent O (.tokenSale meta tid price buyerAddr) s).1 := by
  obtain ⟨h1, h2, h3⟩ := h
  show BidStoresOk (handleTokenSale O meta tid price buyerAddr s).1
  cases htok : s.tokens.load (natStr tid) with
  | none =>
    refine bidStoresOk_congr s _ ?_ ?_ ⟨h1, h2, h3⟩
    · simp only [handleTokenSale, getOrInitialiseToken, createOrFetchUserString_tokens,
        getOrInitialiseGlobalState_fst_tokens, htok, createOrFetchUserString_bids,
        getOrInitialiseGlobalState_fst_bids]
    · simp only [handleTokenSale, getOrInitialiseToken, createOrFetchUserString_tokens,
        getOrInitialiseGlobalState_fst_tokens, htok]
  | some t =>
    have hidt : t.id = natStr tid := h2 tid t htok
    have hsv : ∀ (tok : Token) (st : Store Token),
        (Store.save st t.id tok).load (natStr tid) = some tok := by
      intro tok st
      rw [hidt]
      exact Store.load_save_self _ _ _
    cases hsell : ((createOrFetchUserString buyerAddr
        ((getOrInitialiseGlobalState O s).1)).1).users.load t.owner with
    | none =>
      refine bidStoresOk_congr s _ ?_ ?_ ⟨h1, h2, h3⟩
      · simp only [handleTokenSale, getOrInitialiseToken, createOrFetchUserString_tokens,
          getOrInitialiseGlobalState_fst_tokens, htok, hsell, createOrFetchUserString_bids,
          getOrInitialiseGlobalState_fst_bids]
      · simp only [handleTokenSale, getOrInitialiseToken, createOrFetchUserString_tokens,
          getOrInitialiseGlobalState_fst_tokens, htok, hsell]
    | some seller =>
      cases hob : loadOpt s.bids t.currentBid with
      | none =>
        simp only [handleTokenSale, getOrInitialiseToken, createOrFetchUserString_tokens,
          getOrInitialiseGlobalState_fst_tokens, htok, hsell, createOrFetchUserString_bids,
          getOrInitialiseGlobalState_fst_bids, hob, createOrFetchUserString_sales,
          getOrInitialiseGlobalState_fst_sales]
        refine bidStoresOk_congr _ _ (reconcile_bids _) (reconcile_tokens _) ?_
        refine ⟨?_, ?_, ?_⟩
        · intro k b hk
          exact h1 k b hk
        · intro tid' t' hk
          simp only [hidt, Store.load_save] at hk
          split at hk
          · cases hk
            rename_i hkey
            exact hkey.symm
          · exact h2 tid' t' hk
        · intro k b hk hact
          obtain ⟨t0, ht0, hc0⟩ := h3 k b hk hact
          by_cases hd : b.tokenDetails = natStr tid
          · exfalso
            rw [hd, htok] at ht0
            cases ht0
            rw [hc0] at hob
            simp only [loadOpt] at hob
            rw [hob] at hk
            cases hk
          · refine ⟨t0, ?_, hc0⟩
            show (Store.save s.tokens t.id _).load b.tokenDetails = _
            rw [hidt, Store.load_save_of_ne _ _ _ _ hd]
            exact ht0
      | some b0 =>
        cases hcb : t.currentBid with
        | none =>
          rw [hcb] at hob
          simp only [loadOpt] at hob
          exact Option.noConfusion hob
        | some k0 =>
          rw [hcb] at hob
          simp only [loadOpt] at hob
          have hobid : b0.id = k0 := h1 k0 b0 hob
          have hob2 : loadOpt s.bids t.currentBid = some b0 := by
            rw [hcb]
            simp only [loadOpt]
            exact hob
          by_cases hc : b0.bidAmount = price ∧ buyerAddr = b0.bidder
          · simp only [handleTokenSale, getOrInitialiseToken, createOrFetchUserString_tokens,
              getOrInitialiseGlobalState_fst_tokens, htok, hsell, createOrFetchUserString_bids,
              getOrInitialiseGlobalState_fst_bids, hob2, if_pos hc,
              createOrFetchUserString_sales, getOrInitialiseGlobalState_fst_sales]
            refine bidStoresOk_congr _ _ (reconcile_bids _) (reconcile_tokens _) ?_
            refine ⟨?_, ?_, ?_⟩
            · intro k b hk
              simp only [Store.load_save] at hk
              split at hk
              · cases hk
                rename_i hkey
                exact hkey.symm
              · exact h1 k b hk
            · intro tid' t' hk
              simp only [hidt, Store.load_save] at hk
              split at hk
              · cases hk
                rename_i hkey
                exact hkey.symm
              · exact h2 tid' t' hk
            · intro k b hk hact
              simp only [Store.load_save] at hk
              split at hk
              · cases hk
                simp at hact
              · rename_i hkey
                obtain ⟨t0, ht0, hc0⟩ := h3 k b hk hact
                by_cases hd : b.tokenDetails = natStr tid
                · exfalso
                  rw [hd, htok] at ht0
                  cases ht0
                  rw [hcb] at hc0
                  have hk0k : k0 = k := Option.some.inj hc0
                  subst hk0k
                  exact hkey hobid.symm
                · refine ⟨t0, ?_, hc0⟩
                  show (Store.save s.tokens t.id _).load b.tokenDetails = _
                  rw [hidt, Store.load_save_of_ne _ _ _ _ hd]
                  exact ht0
          · simp only [handleTokenSale, getOrInitialiseToken, createOrFetchUserString_tokens,
              getOrInitialiseGlobalState_fst_tokens, htok, hsell, createOrFetchUserString_bids,
              getOrInitialiseGlobalState_fst_bids, hob2, if_neg hc,
              createOrFetchUserString_sales, getOrInitialiseGlobalState_fst_sales]
            refine bidStoresOk_congr _ _ (reconcile_bids _) (reconcile_tokens _) ?_
            refine ⟨?_, ?_, ?_⟩
            · intro k b hk
              simp only [Store.load_save] at hk
              split at hk
              · cases hk
                rename_i hkey
                exact hkey.symm
              · exact h1 k b hk
            · intro tid' t' hk
              simp only [hidt, Store.load_save] at hk
              split at hk
              · cases hk
                rename_i hkey
                exact hkey.symm
              · exact h2 tid' t' hk
            · intro k b hk hact
              simp only [Store.load_save] at hk
              split at hk
              · cases hk
                simp at hact
              · rename_i hkey
                obtain ⟨t0, ht0, hc0⟩ := h3 k b hk hact
                by_cases hd : b.tokenDetails = natStr tid
                · exfalso
                  rw [hd, htok] at ht0
                  cases ht0
                  rw [hcb] at hc0
                  have hk0k : k0 = k := Option.some.inj hc0
                  subst hk0k
                  exact hkey hobid.symm
                · refine ⟨t0, ?_, hc0⟩
                  show (Store.save s.tokens t.id _).load b.tokenDetails = _
                  rw [hidt, Store.load_save_of_ne _ _ _ _ hd]
                  exact ht0

theorem bidInv_run (O : Source) : ∀ (events : List Event) (s : State), BidStoresOk s →
    (∀ e ∈ events, e.isBidFamily = true) → BidStoresOk (applyEvents O s events) := by
  intro events
  induction events with
  | nil => intro s h _; exact h
  | cons e es ih =>
    intro s h hall
    have he : e.isBidFamily = true := hall e (List.mem_cons_self e es)
    have hnext : BidStoresOk (applyEvent O e s).1 := by
      cases e with
      | bidProposed meta tid amt bidder => exact bidInv_preserve_propose O meta tid amt bidder s h
      | bidWithdrawn meta tid => exact bidInv_preserve_withdraw O meta tid s h
      | tokenSale meta tid price buyer => exact bidInv_preserve_sale O meta tid price buyer s h
      | artistSecondSalePercentUpdated meta pct => simp [Event.isBidFamily] at he
      | buyPriceSet meta tid price => simp [Event.isBidFamily] at he
      | controlLeverUpdated meta tid tip rem lids pvs uvs => simp [Event.isBidFamily] at he
      | creatorWhitelisted meta tid lc creator => simp [Event.isBidFamily] at he
      | permissionUpdated meta tid towner perm => simp [Event.isBidFamily] at he
      | platformAddressUpdated meta addr => simp [Event.isBidFamily] at he
      | platformSalePercentageUpdated meta tid p1 p2 => simp [Event.isBidFamily] at he
      | transfer meta tid fromAddr toAddr => simp [Event.isBidFamily] at he
    exact ih _ hnext (fun e' he' => hall e' (List.mem_cons_of_mem e he'))

theorem handleBidProposed_supersede (O : Source) (meta : EventMeta) (tid amt : Nat)
    (bidder : String) (s : State) (t : Token) (ob : Bid) (k0 : String)
    (hinv : BidStoresOk s)
    (htok : s.tokens.load (natStr tid) = some t)
    (hcb : t.currentBid = some k0)
    (hob : s.bids.load k0 = some ob)
    (hfresh : bidKey tid meta.txHash ≠ k0) :
    (applyEvent O (.bidProposed meta tid amt bidder) s).1.bids.load k0
        = some { ob with bidActive := false } ∧
    ((applyEvent O (.bidProposed meta tid amt bidder) s).1.bids.load
        (bidKey tid meta.txHash)).map (fun nb => (nb.bidActive, nb.bidAmount, nb.tokenDetails))
      = some (true, amt, natStr tid) ∧
    ((applyEvent O (.bidProposed meta tid amt bidder) s).1.tokens.load (natStr tid)).map
        (fun t3 => (t3.currentBid, t3.pastBids))
      = some (some (bidKey tid meta.txHash), t.pastBids ++ [k0]) := by
  obtain ⟨h1, h2, h3⟩ := hinv
  have hidt : t.id = natStr tid := h2 tid t htok
  have hobid : ob.id = k0 := h1 k0 ob hob
  have hob2 : loadOpt s.bids t.currentBid = some ob := by
    rw [hcb]
    simp only [loadOpt]
    exact hob
  refine ⟨?_, ?_, ?_⟩
  · show (handleBidProposed O meta tid amt bidder s).1.bids.load k0 = _
    simp only [handleBidProposed, getOrInitialiseToken_fst, htok,
      createOrFetchUserString_bids, getOrInitialiseGlobalState_fst_bids, hob2, reconcile_bids]
    rw [Store.load_save_of_ne _ _ _ _ (fun hh => hfresh hh.symm), hobid]
    exact Store.load_save_self _ _ _
  · show ((handleBidProposed O meta tid amt bidder s).1.bids.load (bidKey tid meta.txHash)).map
        _ = _
    simp only [handleBidProposed, getOrInitialiseToken_fst, htok,
      createOrFetchUserString_bids, getOrInitialiseGlobalState_fst_bids, hob2, reconcile_bids]
    rw [Store.load_save_self]
    rfl
  · show ((handleBidProposed O meta tid amt bidder s).1.tokens.load (natStr tid)).map _ = _
    simp only [handleBidProposed, getOrInitialiseToken_fst, htok,
      createOrFetchUserString_bids, getOrInitialiseGlobalState_fst_bids,
      createOrFetchUserString_tokens, getOrInitialiseGlobalState_fst_tokens, hob2,
      reconcile_tokens]
    rw [hidt, Store.load_save_self]
    simp [hobid]

/-- Claim C1: starting from a creation event, after any sequence of bid
proposals, bid withdrawals and sales, at most one Bid record per token has
bidActive = true; and a proposal while a bid is active deactivates the old
bid, appends it to the token's historical bid list and attaches the new bid
as the token's current bid. -/
theorem single_active_bid_and_supersede (O : Source) (cmeta : EventMeta) (M N : Nat)
    (creator : String) (events : List Event) (s' : State)
    (hs : s' = applyEvents O
      (applyEvent O (.creatorWhitelisted cmeta M N creator) State.init).1 events)
    (hevs : ∀ e ∈ events, e.isBidFamily = true) :
    (∀ T k1 k2 b1 b2, s'.bids.load k1 = some b1 → s'.bids.load k2 = some b2 →
      b1.tokenDetails = natStr T → b2.tokenDetails = natStr T →
      b1.bidActive = true → b2.bidActive = true → k1 = k2) ∧
    (∀ meta2 tid amt bidder t ob k0,
      s'.tokens.load (natStr tid) = some t → t.currentBid = some k0 →
      s'.bids.load k0 = some ob → ob.bidActive = true → bidKey tid meta2.txHash ≠ k0 →
      (applyEvent O (.bidProposed meta2 tid amt bidder) s').1.bids.load k0
          = some { ob with bidActive := false } ∧
      ((applyEvent O (.bidProposed meta2 tid amt bidder) s').1.bids.load
          (bidKey tid meta2.txHash)).map (fun nb => (nb.bidActive, nb.bidAmount, nb.tokenDetails))
        = some (true, amt, natStr tid) ∧
      ((applyEvent O (.bidProposed meta2 tid amt bidder) s').1.tokens.load (natStr tid)).map
          (fun t3 => (t3.currentBid, t3.pastBids))
        = some (some (bidKey tid meta2.txHash), t.pastBids ++ [k0])) := by
  have hinv : BidStoresOk s' := by
    rw [hs]
    exact bidInv_run O events _ (bidInv_after_creation O cmeta M N creator) hevs
  constructor
  · intro T k1 k2 b1 b2 hk1 hk2 hd1 hd2 ha1 ha2
    obtain ⟨t1, ht1, hc1⟩ := hinv.2.2 k1 b1 hk1 ha1
    obtain ⟨t2, ht2, hc2⟩ := hinv.2.2 k2 b2 hk2 ha2
    rw [hd1] at ht1
    rw [hd2] at ht2
    rw [ht1] at ht2
    cases ht2
    rw [hc1] at hc2
    exact Option.some.inj hc2
  · intro meta2 tid amt bidder t ob k0 htok hcb hob _hact hfresh
    exact handleBidProposed_supersede O meta2 tid amt bidder s' t ob k0 hinv htok hcb hob hfresh

/-- Witness for C1, scenario A: after creating token 0 and proposing bid B1
(100 by 0xb), a second proposal B2 (150 by 0xc) deactivates B1; B1's record is
re-stored inactive under its key. -/
theorem single_active_bid_and_supersede_witness :
    (applyEvent oracle0 (.bidProposed (meta0 "0xh2") 0 150 "0xc") demoBid).1.bids.load
        (bidKey 0 "0xh1") = some { demoBidBid with bidActive := false } := by
  obtain ⟨-, hsup⟩ := single_active_bid_and_supersede oracle0 (meta0 "0xc") 0 1 "0xa"
      [.bidProposed (meta0 "0xh1") 0 100 "0xb"] demoBid (by decide) (by decide)
  exact (hsup (meta0 "0xh2") 0 150 "0xc" demoBidToken demoBidBid (bidKey 0 "0xh1")
    (by decide) (by decide) (by decide) (by decide) (by decide)).1

theorem countdown_length (n : Nat) : (countdown n).length = n := by
  induction n with
  | zero => rfl
  | succ m ih => simp [countdown, ih]

theorem countdown_reverse (n : Nat) : (countdown n).reverse = List.range' 1 n := by
  induction n with
  | zero => rfl
  | succ m ih =>
    have hr : List.range' 1 (m + 1) = List.range' 1 m ++ [1 + 1 * m] := List.range'_concat 1 m
    simp only [countdown, List.reverse_cons, ih, hr]
    congr 1
    simp [Nat.add_comm]

theorem salesFor_congr {s s' : State} (h : s'.sales = s.sales) (tid : Nat) :
    salesFor s' tid = salesFor s tid := by
  unfold salesFor
  rw [h]

theorem saleNumbersFor_congr {s s' : State} (h : s'.sales = s.sales) (tid : Nat) :
    saleNumbersFor s' tid = saleNumbersFor s tid := by
  unfold saleNumbersFor
  rw [salesFor_congr h]

theorem salesFor_save_match (s : State) (sale : Sale) (k : String) (tid : Nat)
    (hfresh : s.sales.load k = none) (hmatch : sale.tokenDetails = natStr tid)
    (s' : State) (hs' : s'.sales = s.sales.save k sale) :
    salesFor s' tid = sale :: salesFor s tid := by
  unfold salesFor
  rw [hs', Store.save_of_load_none _ _ _ hfresh]
  rw [List.filter_cons]
  have : (sale.tokenDetails == natStr tid) = true := by
    rw [hmatch]
    exact beq_self_eq_true _
  simp [this]

theorem salesFor_save_nomatch (s : State) (sale : Sale) (k : String) (tid : Nat)
    (hfresh : s.sales.load k = none) (hmatch : sale.tokenDetails ≠ natStr tid)
    (s' : State) (hs' : s'.sales = s.sales.save k sale) :
    salesFor s' tid = salesFor s tid := by
  unfold salesFor
  rw [hs', Store.save_of_load_none _ _ _ hfresh]
  rw [List.filter_cons]
  have : (sale.tokenDetails == natStr tid) = false := by
    exact beq_eq_false_iff_ne.2 hmatch
  simp [this]

theorem saleStoresOk_congr (s s' : State)
    (hsales : s'.sales = s.sales) (htokens : s'.tokens = s.tokens)
    (husers : ∀ k, (s.users.load k).isSome = true → (s'.users.load k).isSome = true)
    (h : SaleStoresOk s) : SaleStoresOk s' := by
  obtain ⟨h1, h2⟩ := h
  constructor
  · intro tid t htok
    rw [htokens] at htok
    obtain ⟨ha, hb, hc⟩ := h1 tid t htok
    exact ⟨ha, husers _ hb, by rw [saleNumbersFor_congr hsales]; exact hc⟩
  · intro k sale hk
    rw [hsales] at hk
    obtain ⟨tid, t, hta, htb, htc, htd, hte, htf⟩ := h2 k sale hk
    exact ⟨tid, t, by rw [htokens]; exact hta, htb, htc, htd, hte, htf⟩

theorem saleInv_token_update (s s' : State) (tid : Nat) (t t1 : Token)
    (hs : SaleStoresOk s)
    (htok : s.tokens.load (natStr tid) = some t)
    (htload2 : s'.tokens.load (natStr tid) = some t1)
    (htload : ∀ k, k ≠ natStr tid → s'.tokens.load k = s.tokens.load k)
    (hsales : s'.sales = s.sales)
    (husers : ∀ k, (s.users.load k).isSome = true → (s'.users.load k).isSome = true)
    (hid : t1.id = natStr tid)
    (hnum : t1.numberOfSales = t.numberOfSales)
    (howner : (s'.users.load t1.owner).isSome = true) :
    SaleStoresOk s' := by
  obtain ⟨h1, h2⟩ := hs
  constructor
  · intro tid' t' htok'
    by_cases he : natStr tid' = natStr tid
    · rw [he, htload2] at htok'
      cases htok'
      obtain ⟨-, -, hc⟩ := h1 tid t htok
      refine ⟨by rw [hid, he], howner, ?_⟩
      rw [saleNumbersFor_congr hsales]
      have htid : tid' = tid := natStr_inj he
      rw [htid, hc, hnum]
    · rw [htload _ he] at htok'
      obtain ⟨ha, hb, hc⟩ := h1 tid' t' htok'
      exact ⟨ha, husers _ hb, by rw [saleNumbersFor_congr hsales]; exact hc⟩
  · intro k sale hk
    rw [hsales] at hk
    obtain ⟨tid0, t0, hta, htb, htc, htd, hte, htf⟩ := h2 k sale hk
    by_cases he : natStr tid0 = natStr tid
    · have htid : tid0 = tid := natStr_inj he
      subst htid
      rw [hta] at htok
      cases htok
      exact ⟨tid0, t1, htload2, htb, htc, htd, hte, by rw [hnum]; exact htf⟩
    · exact ⟨tid0, t0, by rw [htload _ he]; exact hta, htb, htc, htd, hte, htf⟩

theorem createChildren_tokens_all (O : Source) (creator : String) (M : Nat)
    (P : String → Token → Prop)
    (hP : ∀ idStr, P idStr (defaultToken idStr creator false)) :
    ∀ (count : Nat) (s : State), (∀ k t, s.tokens.load k = some t → P k t) →
      ∀ k t, (createChildren O creator M count s).tokens.load k = some t → P k t := by
  intro count
  induction count with
  | zero => intro s h; exact h
  | succ c ih =>
    intro s h k t hk
    unfold createChildren at hk
    rw [Store.load_save] at hk
    split at hk
    · rename_i hkey
      cases hk
      subst hkey
      exact hP _
    · exact ih s h k t hk

theorem creation_sales_empty (O : Source) (meta : EventMeta) (M N : Nat) (creator : String) :
    (applyEvent O (.creatorWhitelisted meta M N creator) State.init).1.sales = [] := by
  rw [handleCreatorWhitelisted_eq]
  unfold createTokensFromMasterTokenId
  rw [createChildren_sales, createOrFetchUserString_sales]
  rfl

theorem creation_tokens_chr (O : Source) (meta : EventMeta) (M N : Nat) (creator : String) :
    ∀ k t, (applyEvent O (.creatorWhitelisted meta M N creator) State.init).1.tokens.load k
        = some t → t.id = k ∧ t.numberOfSales = 0 ∧ t.owner = creator := by
  rw [handleCreatorWhitelisted_eq]
  unfold createTokensFromMasterTokenId
  apply createChildren_tokens_all O creator M
      (fun k t => t.id = k ∧ t.numberOfSales = 0 ∧ t.owner = creator)
      (fun idStr => ⟨rfl, rfl, rfl⟩) N
  intro k t hk
  rw [Store.load_save] at hk
  split at hk
  · cases hk
    rename_i hkey
    exact ⟨hkey.symm, rfl, rfl⟩
  · rw [createOrFetchUserString_tokens] at hk
    cases hk

theorem creation_creator_user (O : Source) (meta : EventMeta) (M N : Nat) (creator : String) :
    ((applyEvent O (.creatorWhitelisted meta M N creator) State.init).1.users.load
      creator).isSome = true := by
  rw [handleCreatorWhitelisted_eq]
  unfold createTokensFromMasterTokenId
  rw [createChildren_users]
  have := createOrFetchUserString_loads_self creator (creationState O M N State.init)
  show (((createOrFetchUserString creator (creationState O M N State.init)).1).users.load
      creator).isSome = true
  rw [this]
  rfl

theorem saleInv_nonsale_step (s s' : State) (tid0 : Nat)
    (hs : SaleStoresOk s)
    (hsl : s'.sales = s.sales)
    (hus : ∀ k, (s.users.load k).isSome = true → (s'.users.load k).isSome = true)
    (hshape : s'.tokens = s.tokens ∨
      ∃ t0 t1, s.tokens.load (natStr tid0) = some t0 ∧ s'.tokens = s.tokens.save t0.id t1 ∧
        t1.id = t0.id ∧ t1.numberOfSales = t0.numberOfSales ∧
        ((s'.users.load t1.owner).isSome = true ∨ t1.owner = t0.owner)) :
    SaleStoresOk s' ∧
    ∀ tid t, s.tokens.load (natStr tid) = some t →
      ∃ t2, s'.tokens.load (natStr tid) = some t2 ∧ t2.numberOfSales = t.numberOfSales := by
  rcases hshape with htk | ⟨t0, t1, htok0, htk, hid1, hnum1, howner1⟩
  · refine ⟨saleStoresOk_congr s s' hsl htk hus hs, ?_⟩
    intro tid t htok
    exact ⟨t, by rw [htk]; exact htok, rfl⟩
  · obtain ⟨hidt0, howner0, -⟩ := hs.1 tid0 t0 htok0
    have howner2 : (s'.users.load t1.owner).isSome = true := by
      rcases howner1 with h | h
      · exact h
      · rw [h]
        exact hus _ howner0
    have hl2 : s'.tokens.load (natStr tid0) = some t1 := by
      rw [htk, hidt0]
      exact Store.load_save_self _ _ _
    have hl : ∀ k, k ≠ natStr tid0 → s'.tokens.load k = s.tokens.load k := by
      intro k hk
      rw [htk]
      exact Store.load_save_of_ne _ _ _ _ (fun hh => hk (by rw [hh, hidt0]))
    refine ⟨saleInv_token_update s s' tid0 t0 t1 hs htok0 hl2 hl hsl hus
      (by rw [hid1]; exact hidt0) hnum1 howner2, ?_⟩
    intro tid t htok
    by_cases he : natStr tid = natStr tid0
    · have htt : tid = tid0 := natStr_inj he
      subst htt
      rw [htok] at htok0
      cases htok0
      exact ⟨t1, by rw [he] at hl2 ⊢; exact hl2, hnum1⟩
    · exact ⟨t, by rw [hl _ he]; exact htok, rfl⟩

theorem saleInv_sale_core (s s' : State) (tid : Nat) (t0 t3 : Token) (sale2 : Sale)
    (hs : SaleStoresOk s)
    (htok0 : s.tokens.load (natStr tid) = some t0)
    (hsl : s'.sales = s.sales.save (saleKey tid (t0.numberOfSales + 1)) sale2)
    (hsid : sale2.id = saleKey tid (t0.numberOfSales + 1))
    (hsdet : sale2.tokenDetails = natStr tid)
    (hsnum : sale2.tokenSaleNumber = t0.numberOfSales + 1)
    (htk : s'.tokens = s.tokens.save t0.id t3)
    (ht3id : t3.id = t0.id)
    (ht3num : t3.numberOfSales = t0.numberOfSales + 1)
    (hus : ∀ k, (s.users.load k).isSome = true → (s'.users.load k).isSome = true)
    (howner3 : (s'.users.load t3.owner).isSome = true) :
    SaleStoresOk s' ∧
    ∀ tid2 t, s.tokens.load (natStr tid2) = some t →
      ∃ t2, s'.tokens.load (natStr tid2) = some t2 ∧
        t2.numberOfSales = t.numberOfSales + (if tid = tid2 then 1 else 0) := by
  obtain ⟨h1, h2⟩ := hs
  obtain ⟨hidt0, howner0, hnums0⟩ := h1 tid t0 htok0
  have hfresh : s.sales.load (saleKey tid (t0.numberOfSales + 1)) = none := by
    cases hl : s.sales.load (saleKey tid (t0.numberOfSales + 1)) with
    | none => rfl
    | some sl =>
      obtain ⟨tidx, tx, hta, htb, htc, htd, hte, htf⟩ := h2 _ sl hl
      obtain ⟨he1, he2⟩ := saleKey_inj htc
      subst he1
      rw [htok0] at hta
      cases hta
      omega
  have htl2 : s'.tokens.load (natStr tid) = some t3 := by
    rw [htk, hidt0]
    exact Store.load_save_self _ _ _
  have htl : ∀ k, k ≠ natStr tid → s'.tokens.load k = s.tokens.load k := by
    intro k hk
    rw [htk]
    exact Store.load_save_of_ne _ _ _ _ (fun hh => hk (by rw [hh, hidt0]))
  have hsf : salesFor s' tid = sale2 :: salesFor s tid :=
    salesFor_save_match s sale2 _ tid hfresh hsdet s' hsl
  have hsfn : ∀ tid2, natStr tid2 ≠ natStr tid → salesFor s' tid2 = salesFor s tid2 := by
    intro tid2 hne
    exact salesFor_save_nomatch s sale2 _ tid2 hfresh (by rw [hsdet]; exact hne.symm) s' hsl
  refine ⟨⟨?_, ?_⟩, ?_⟩
  · intro tid2 t htok2
    by_cases he : natStr tid2 = natStr tid
    · have hteq : tid2 = tid := natStr_inj he
      subst hteq
      rw [htl2] at htok2
      cases htok2
      refine ⟨by rw [ht3id]; exact hidt0, howner3, ?_⟩
      show saleNumbersFor s' tid2 = countdown t3.numberOfSales
      unfold saleNumbersFor
      rw [hsf, List.map_cons, hsnum, ht3num]
      have hnums0eq : (salesFor s tid2).map (fun sale => sale.tokenSaleNumber)
          = countdown t0.numberOfSales := hnums0
      rw [hnums0eq]
      rfl
    · rw [htl _ he] at htok2
      obtain ⟨ha, hb, hc⟩ := h1 tid2 t htok2
      refine ⟨ha, hus _ hb, ?_⟩
      unfold saleNumbersFor
      rw [hsfn tid2 he]
      exact hc
  · intro k sale hk
    rw [hsl, Store.load_save] at hk
    split at hk
    · rename_i hke
      cases hk
      refine ⟨tid, t3, htl2, hsdet, by rw [hsnum, hke], ?_, ?_, ?_⟩
      · rw [hsid]
        exact hke.symm
      · rw [hsnum]
        omega
      · rw [hsnum, ht3num]
    · rename_i hke
      obtain ⟨tidx, tx, hta, htb, htc, htd, hte, htf⟩ := h2 k sale hk
      by_cases he : natStr tidx = natStr tid
      · have hteq : tidx = tid := natStr_inj he
        subst hteq
        rw [htok0] at hta
        cases hta
        refine ⟨tidx, t3, htl2, htb, htc, htd, hte, ?_⟩
        rw [ht3num]
        omega
      · exact ⟨tidx, tx, by rw [htl _ he]; exact hta, htb, htc, htd, hte, htf⟩
  · intro tid2 t htok2
    by_cases heq : tid = tid2
    · subst heq
      rw [htok0] at htok2
      cases htok2
      exact ⟨t3, htl2, by simp [ht3num]⟩
    · have hne : natStr tid2 ≠ natStr tid := fun hh => heq (natStr_inj hh).symm
      exact ⟨t, by rw [htl _ hne]; exact htok2, by simp [heq]⟩

theorem saleInv_sale_step (O : Source) (meta : EventMeta) (tid price : Nat)
    (buyerAddr : String) (s : State) (hs : SaleStoresOk s) :
    SaleStoresOk (applyEvent O (.tokenSale meta tid price buyerAddr) s).1 ∧
    ∀ tid2 t, s.tokens.load (natStr tid2) = some t →
      ∃ t2, (applyEvent O (.tokenSale meta tid price buyerAddr) s).1.tokens.load (natStr tid2)
          = some t2 ∧
        t2.numberOfSales = t.numberOfSales + (if tid = tid2 then 1 else 0) := by
  have hload : getOrInitialiseToken ((createOrFetchUserString buyerAddr
      (getOrInitialiseGlobalState O s).1).1) tid = s.tokens.load (natStr tid) := by
    unfold getOrInitialiseToken
    rw [createOrFetchUserString_tokens, getOrInitialiseGlobalState_fst_tokens]
  cases htok0 : s.tokens.load (natStr tid) with
  | none =>
    constructor
    · refine saleStoresOk_congr s _ ?_ ?_ ?_ hs
      · simp only [applyEvent, handleTokenSale, hload, htok0, createOrFetchUserString_sales,
          getOrInitialiseGlobalState_fst_sales]
      · simp only [applyEvent, handleTokenSale, hload, htok0, createOrFetchUserString_tokens,
          getOrInitialiseGlobalState_fst_tokens]
      · intro k hk
        simp only [applyEvent, handleTokenSale, hload, htok0]
        apply createOrFetchUserString_users_isSome
        rw [getOrInitialiseGlobalState_fst_users]
        exact hk
    · intro tid2 t htok2
      have hne : tid ≠ tid2 := by
        intro hh
        rw [← hh, htok0] at htok2
        cases htok2
      refine ⟨t, ?_, by simp [hne]⟩
      simp only [applyEvent, handleTokenSale, hload, htok0, createOrFetchUserString_tokens,
        getOrInitialiseGlobalState_fst_tokens]
      exact htok2
  | some t0 =>
    obtain ⟨hidt0, howner0, -⟩ := hs.1 tid t0 htok0
    have hsell0 : (((createOrFetchUserString buyerAddr
        (getOrInitialiseGlobalState O s).1).1).users.load t0.owner).isSome = true := by
      apply createOrFetchUserString_users_isSome
      rw [getOrInitialiseGlobalState_fst_users]
      exact howner0
    cases hsellL : ((createOrFetchUserString buyerAddr
        (getOrInitialiseGlobalState O s).1).1).users.load t0.owner with
    | none =>
      rw [hsellL] at hsell0
      exact absurd hsell0 (by simp)
    | some seller =>
      cases hob : loadOpt s.bids t0.currentBid with
      | none =>
        refine saleInv_sale_core s
          ((applyEvent O (.tokenSale meta tid price buyerAddr) s).1) tid t0
          ({ t0 with
              owner := (createOrFetchUserString buyerAddr (getOrInitialiseGlobalState O s).1).2.id
              lastSale := some (saleKey tid (t0.numberOfSales + 1))
              currentBuyPrice := 0
              numberOfSales := t0.numberOfSales + 1
              tokenDidHaveFirstSale := true
              allSales := t0.allSales ++ [saleKey tid (t0.numberOfSales + 1)]
              currentBid := none
              permissionedAddress := getPermissionedAddress O tid buyerAddr })
          ({ id := saleKey tid (t0.numberOfSales + 1)
             tokenDetails := t0.id
             buyer := (createOrFetchUserString buyerAddr (getOrInitialiseGlobalState O s).1).2.id
             seller := seller.id
             salePrice := price
             saleTimestamp := meta.timestamp
             tokenSaleNumber := t0.numberOfSales + 1
             isBidSale := false
             bidDetails := none })
          hs htok0 ?_ rfl hidt0 rfl ?_ rfl rfl ?_ ?_
        · simp only [applyEvent, handleTokenSale, hload, htok0, hsellL,
            createOrFetchUserString_bids, getOrInitialiseGlobalState_fst_bids, hob,
            reconcile_sales, createOrFetchUserString_sales, getOrInitialiseGlobalState_fst_sales]
        · simp only [applyEvent, handleTokenSale, hload, htok0, hsellL,
            createOrFetchUserString_bids, getOrInitialiseGlobalState_fst_bids, hob,
            reconcile_tokens, createOrFetchUserString_tokens, getOrInitialiseGlobalState_fst_tokens]
        · intro k hk
          simp only [applyEvent, handleTokenSale, hload, htok0, hsellL,
            createOrFetchUserString_bids, getOrInitialiseGlobalState_fst_bids, hob,
            reconcile_users]
          apply Store.load_isSome_save
          apply Store.load_isSome_save
          apply createOrFetchUserString_users_isSome
          rw [getOrInitialiseGlobalState_fst_users]
          exact hk
        · simp only [applyEvent, handleTokenSale, hload, htok0, hsellL,
            createOrFetchUserString_bids, getOrInitialiseGlobalState_fst_bids, hob,
            reconcile_users]
          apply Store.load_isSome_save
          rw [Store.load_save_self]
          rfl
      | some b =>
        by_cases hc : b.bidAmount = price ∧ buyerAddr = b.bidder
        · refine saleInv_sale_core s
            ((applyEvent O (.tokenSale meta tid price buyerAddr) s).1) tid t0
            ({ t0 with
                pastBids := t0.pastBids ++ [b.id]
                owner := (createOrFetchUserString buyerAddr
                  (getOrInitialiseGlobalState O s).1).2.id
                lastSale := some (saleKey tid (t0.numberOfSales + 1))
                currentBuyPrice := 0
                numberOfSales := t0.numberOfSales + 1
                tokenDidHaveFirstSale := true
                allSales := t0.allSales ++ [saleKey tid (t0.numberOfSales + 1)]
                currentBid := none
                permissionedAddress := getPermissionedAddress O tid buyerAddr })
            ({ id := saleKey tid (t0.numberOfSales + 1)
               tokenDetails := t0.id
               buyer := (createOrFetchUserString buyerAddr
                 (getOrInitialiseGlobalState O s).1).2.id
               seller := seller.id
               salePrice := price
               saleTimestamp := meta.timestamp
               tokenSaleNumber := t0.numberOfSales + 1
               isBidSale := true
               bidDetails := some b.id })
            hs htok0 ?_ rfl hidt0 rfl ?_ rfl rfl ?_ ?_
          · simp only [applyEvent, handleTokenSale, hload, htok0, hsellL,
              createOrFetchUserString_bids, getOrInitialiseGlobalState_fst_bids, hob, if_pos hc,
              reconcile_sales, createOrFetchUserString_sales, getOrInitialiseGlobalState_fst_sales]
          · simp only [applyEvent, handleTokenSale, hload, htok0, hsellL,
              createOrFetchUserString_bids, getOrInitialiseGlobalState_fst_bids, hob, if_pos hc,
              reconcile_tokens, createOrFetchUserString_tokens,
              getOrInitialiseGlobalState_fst_tokens]
          · intro k hk
            simp only [applyEvent, handleTokenSale, hload, htok0, hsellL,
              createOrFetchUserString_bids, getOrInitialiseGlobalState_fst_bids, hob, if_pos hc,
              reconcile_users]
            apply Store.load_isSome_save
            apply Store.load_isSome_save
            apply createOrFetchUserString_users_isSome
            rw [getOrInitialiseGlobalState_fst_users]
            exact hk
          · simp only [applyEvent, handleTokenSale, hload, htok0, hsellL,
              createOrFetchUserString_bids, getOrInitialiseGlobalState_fst_bids, hob, if_pos hc,
              reconcile_users]
            apply Store.load_isSome_save
            rw [Store.load_save_self]
            rfl
        · refine saleInv_sale_core s
            ((applyEvent O (.tokenSale meta tid price buyerAddr) s).1) tid t0
            ({ t0 with
                pastBids := t0.pastBids ++ [b.id]
                owner := (createOrFetchUserString buyerAddr
                  (getOrInitialiseGlobalState O s).1).2.id
                lastSale := some (saleKey tid (t0.numberOfSales + 1))
                currentBuyPrice := 0
                numberOfSales := t0.numberOfSales + 1
                tokenDidHaveFirstSale := true
                allSales := t0.allSales ++ [saleKey tid (t0.numberOfSales + 1)]
                currentBid := none
                permissionedAddress := getPermissionedAddress O tid buyerAddr })
            ({ id := saleKey tid (t0.numberOfSales + 1)
               tokenDetails := t0.id
               buyer := (createOrFetchUserString buyerAddr
                 (getOrInitialiseGlobalState O s).1).2.id
               seller := seller.id
               salePrice := price
               saleTimestamp := meta.timestamp
               tokenSaleNumber := t0.numberOfSales + 1
               isBidSale := false
               bidDetails := none })
            hs htok0 ?_ rfl hidt0 rfl ?_ rfl rfl ?_ ?_
          · simp only [applyEvent, handleTokenSale, hload, htok0, hsellL,
              createOrFetchUserString_bids, getOrInitialiseGlobalState_fst_bids, hob, if_neg hc,
              reconcile_sales, createOrFetchUserString_sales, getOrInitialiseGlobalState_fst_sales]
          · simp only [applyEvent, handleTokenSale, hload, htok0, hsellL,
              createOrFetchUserString_bids, getOrInitialiseGlobalState_fst_bids, hob, if_neg hc,
              reconcile_tokens, createOrFetchUserString_tokens,
              getOrInitialiseGlobalState_fst_tokens]
          · intro k hk
            simp only [applyEvent, handleTokenSale, hload, htok0, hsellL,
              createOrFetchUserString_bids, getOrInitialiseGlobalState_fst_bids, hob, if_neg hc,
              reconcile_users]
            apply Store.load_isSome_save
            apply Store.load_isSome_save
            apply createOrFetchUserString_users_isSome
            rw [getOrInitialiseGlobalState_fst_users]
            exact hk
          · simp only [applyEvent, handleTokenSale, hload, htok0, hsellL,
              createOrFetchUserString_bids, getOrInitialiseGlobalState_fst_bids, hob, if_neg hc,
              reconcile_users]
            apply Store.load_isSome_save
            rw [Store.load_save_self]
            rfl

theorem saleEventsFor_single_sale (tid tid0 price : Nat) (meta : EventMeta) (buyer : String) :
    saleEventsFor tid [Event.tokenSale meta tid0 price buyer]
      = if tid0 = tid then 1 else 0 := by
  simp [saleEventsFor, List.countP_cons, List.countP_nil, beq_iff_eq]

theorem saleInv_step (O : Source) (e : Event) (s : State)
    (hs : SaleStoresOk s) (hne : e.isCreation = false) :
    SaleStoresOk (applyEvent O e s).1 ∧
    ∀ tid t, s.tokens.load (natStr tid) = some t →
      ∃ t2, (applyEvent O e s).1.tokens.load (natStr tid) = some t2 ∧
        t2.numberOfSales = t.numberOfSales + saleEventsFor tid [e] := by
  cases e with
  | creatorWhitelisted meta tid0 lc creator => simp [Event.isCreation] at hne
  | artistSecondSalePercentUpdated meta pct =>
    obtain ⟨ha, hb⟩ := saleInv_nonsale_step s
      ((applyEvent O (.artistSecondSalePercentUpdated meta pct) s).1) 0 hs
      (by simp only [applyEvent, handleArtistSecondSalePercentUpdated,
        getOrInitialiseGlobalState_fst_sales])
      (by
        intro k hk
        simp only [applyEvent, handleArtistSecondSalePercentUpdated,
          getOrInitialiseGlobalState_fst_users]
        exact hk)
      (Or.inl (by simp only [applyEvent, handleArtistSecondSalePercentUpdated,
        getOrInitialiseGlobalState_fst_tokens]))
    exact ⟨ha, hb⟩
  | platformAddressUpdated meta addr =>
    obtain ⟨ha, hb⟩ := saleInv_nonsale_step s
      ((applyEvent O (.platformAddressUpdated meta addr) s).1) 0 hs
      (by simp only [applyEvent, handlePlatformAddressUpdated,
        getOrInitialiseGlobalState_fst_sales])
      (by
        intro k hk
        simp only [applyEvent, handlePlatformAddressUpdated,
          getOrInitialiseGlobalState_fst_users]
        exact hk)
      (Or.inl (by simp only [applyEvent, handlePlatformAddressUpdated,
        getOrInitialiseGlobalState_fst_tokens]))
    exact ⟨ha, hb⟩
  | bidProposed meta tid0 amt bidder =>
    have hload : getOrInitialiseToken (getOrInitialiseGlobalState O s).1 tid0
        = s.tokens.load (natStr tid0) := getOrInitialiseToken_fst O s tid0
    cases htok0 : s.tokens.load (natStr tid0) with
    | none =>
      obtain ⟨ha, hb⟩ := saleInv_nonsale_step s
        ((applyEvent O (.bidProposed meta tid0 amt bidder) s).1) tid0 hs
        (by simp only [applyEvent, handleBidProposed, hload, htok0,
          createOrFetchUserString_sales, getOrInitialiseGlobalState_fst_sales])
        (by
          intro k hk
          simp only [applyEvent, handleBidProposed, hload, htok0]
          apply createOrFetchUserString_users_isSome
          rw [getOrInitialiseGlobalState_fst_users]
          exact hk)
        (Or.inl (by simp only [applyEvent, handleBidProposed, hload, htok0,
          createOrFetchUserString_tokens, getOrInitialiseGlobalState_fst_tokens]))
      exact ⟨ha, hb⟩
    | some t0 =>
      cases hob : loadOpt s.bids t0.currentBid with
      | none =>
        obtain ⟨ha, hb⟩ := saleInv_nonsale_step s
          ((applyEvent O (.bidProposed meta tid0 amt bidder) s).1) tid0 hs
          (by simp only [applyEvent, handleBidProposed, hload, htok0,
            createOrFetchUserString_bids, getOrInitialiseGlobalState_fst_bids, hob,
            reconcile_sales, createOrFetchUserString_sales,
            getOrInitialiseGlobalState_fst_sales])
          (by
            intro k hk
            simp only [applyEvent, handleBidProposed, hload, htok0,
              createOrFetchUserString_bids, getOrInitialiseGlobalState_fst_bids, hob,
              reconcile_users]
            apply Store.load_isSome_save
            apply createOrFetchUserString_users_isSome
            rw [getOrInitialiseGlobalState_fst_users]
            exact hk)
          (Or.inr ⟨t0, { t0 with currentBid := some (bidKey tid0 meta.txHash) }, htok0,
            by simp only [applyEvent, handleBidProposed, hload, htok0,
              createOrFetchUserString_bids, getOrInitialiseGlobalState_fst_bids, hob,
              reconcile_tokens, createOrFetchUserString_tokens,
              getOrInitialiseGlobalState_fst_tokens],
            rfl, rfl, Or.inr rfl⟩)
        exact ⟨ha, hb⟩
      | some ob =>
        obtain ⟨ha, hb⟩ := saleInv_nonsale_step s
          ((applyEvent O (.bidProposed meta tid0 amt bidder) s).1) tid0 hs
          (by simp only [applyEvent, handleBidProposed, hload, htok0,
            createOrFetchUserString_bids, getOrInitialiseGlobalState_fst_bids, hob,
            reconcile_sales, createOrFetchUserString_sales,
            getOrInitialiseGlobalState_fst_sales])
          (by
            intro k hk
            simp only [applyEvent, handleBidProposed, hload, htok0,
              createOrFetchUserString_bids, getOrInitialiseGlobalState_fst_bids, hob,
              reconcile_users]
            apply Store.load_isSome_save
            apply createOrFetchUserString_users_isSome
            rw [getOrInitialiseGlobalState_fst_users]
            exact hk)
          (Or.inr ⟨t0, { t0 with
              pastBids := t0.pastBids ++ [ob.id]
              currentBid := some (bidKey tid0 meta.txHash) }, htok0,
            by simp only [applyEvent, handleBidProposed, hload, htok0,
              createOrFetchUserString_bids, getOrInitialiseGlobalState_fst_bids, hob,
              reconcile_tokens, createOrFetchUserString_tokens,
              getOrInitialiseGlobalState_fst_tokens],
            rfl, rfl, Or.inr rfl⟩)
        exact ⟨ha, hb⟩
  | bidWithdrawn meta tid0 =>
    have hload : getOrInitialiseToken (refreshGlobalState O s) tid0
        = s.tokens.load (natStr tid0) := getOrInitialiseToken_refresh O s tid0
    cases htok0 : s.tokens.load (natStr tid0) with
    | none =>
      obtain ⟨ha, hb⟩ := saleInv_nonsale_step s
        ((applyEvent O (.bidWithdrawn meta tid0) s).1) tid0 hs
        (by simp only [applyEvent, handleBidWithdrawn, hload, htok0, refreshGlobalState_sales])
        (by
          intro k hk
          simp only [applyEvent, handleBidWithdrawn, hload, htok0, refreshGlobalState_users]
          exact hk)
        (Or.inl (by simp only [applyEvent, handleBidWithdrawn, hload, htok0,
          refreshGlobalState_tokens]))
      exact ⟨ha, hb⟩
    | some t0 =>
      cases hob : loadOpt s.bids t0.currentBid with
      | none =>
        obtain ⟨ha, hb⟩ := saleInv_nonsale_step s
          ((applyEvent O (.bidWithdrawn meta tid0) s).1) tid0 hs
          (by simp only [applyEvent, handleBidWithdrawn, hload, htok0,
            refreshGlobalState_bids, hob, refreshGlobalState_sales])
          (by
            intro k hk
            simp only [applyEvent, handleBidWithdrawn, hload, htok0,
              refreshGlobalState_bids, hob, refreshGlobalState_users]
            exact hk)
          (Or.inl (by simp only [applyEvent, handleBidWithdrawn, hload, htok0,
            refreshGlobalState_bids, hob, refreshGlobalState_tokens]))
        exact ⟨ha, hb⟩
      | some b =>
        obtain ⟨ha, hb⟩ := saleInv_nonsale_step s
          ((applyEvent O (.bidWithdrawn meta tid0) s).1) tid0 hs
          (by simp only [applyEvent, handleBidWithdrawn, hload, htok0,
            refreshGlobalState_bids, hob, refreshGlobalState_sales])
          (by
            intro k hk
            simp only [applyEvent, handleBidWithdrawn, hload, htok0,
              refreshGlobalState_bids, hob, refreshGlobalState_users]
            exact hk)
          (Or.inr ⟨t0, { t0 with pastBids := t0.pastBids ++ [b.id] }, htok0,
            by simp only [applyEvent, handleBidWithdrawn, hload, htok0,
              refreshGlobalState_bids, hob, refreshGlobalState_tokens],
            rfl, rfl, Or.inr rfl⟩)
        exact ⟨ha, hb⟩
  | buyPriceSet meta tid0 price =>
    have hload : getOrInitialiseToken (refreshGlobalState O s) tid0
        = s.tokens.load (natStr tid0) := getOrInitialiseToken_refresh O s tid0
    cases htok0 : s.tokens.load (natStr tid0) with
    | none =>
      obtain ⟨ha, hb⟩ := saleInv_nonsale_step s
        ((applyEvent O (.buyPriceSet meta tid0 price) s).1) tid0 hs
        (by simp only [applyEvent, handleBuyPriceSet, hload, htok0, refreshGlobalState_sales])
        (by
          intro k hk
          simp only [applyEvent, handleBuyPriceSet, hload, htok0, refreshGlobalState_users]
          exact hk)
        (Or.inl (by simp only [applyEvent, handleBuyPriceSet, hload, htok0,
          refreshGlobalState_tokens]))
      exact ⟨ha, hb⟩
    | some t0 =>
      obtain ⟨ha, hb⟩ := saleInv_nonsale_step s
        ((applyEvent O (.buyPriceSet meta tid0 price) s).1) tid0 hs
        (by simp only [applyEvent, handleBuyPriceSet, hload, htok0, reconcile_sales,
          refreshGlobalState_sales])
        (by
          intro k hk
          simp only [applyEvent, handleBuyPriceSet, hload, htok0, reconcile_users,
            refreshGlobalState_users]
          exact hk)
        (Or.inr ⟨t0, { t0 with currentBuyPrice := price }, htok0,
          by simp only [applyEvent, handleBuyPriceSet, hload, htok0, reconcile_tokens,
            refreshGlobalState_tokens],
          rfl, rfl, Or.inr rfl⟩)
      exact ⟨ha, hb⟩
  | platformSalePercentageUpdated meta tid0 p1 p2 =>
    have hload : getOrInitialiseToken (refreshGlobalState O s) tid0
        = s.tokens.load (natStr tid0) := getOrInitialiseToken_refresh O s tid0
    cases htok0 : s.tokens.load (natStr tid0) with
    | none =>
      obtain ⟨ha, hb⟩ := saleInv_nonsale_step s
        ((applyEvent O (.platformSalePercentageUpdated meta tid0 p1 p2) s).1) tid0 hs
        (by simp only [applyEvent, handlePlatformSalePercentageUpdated, hload, htok0,
          refreshGlobalState_sales])
        (by
          intro k hk
          simp only [applyEvent, handlePlatformSalePercentageUpdated, hload, htok0,
            refreshGlobalState_users]
          exact hk)
        (Or.inl (by simp only [applyEvent, handlePlatformSalePercentageUpdated, hload, htok0,
          refreshGlobalState_tokens]))
      exact ⟨ha, hb⟩
    | some t0 =>
      obtain ⟨ha, hb⟩ := saleInv_nonsale_step s
        ((applyEvent O (.platformSalePercentageUpdated meta tid0 p1 p2) s).1) tid0 hs
        (by simp only [applyEvent, handlePlatformSalePercentageUpdated, hload, htok0,
          reconcile_sales, refreshGlobalState_sales])
        (by
          intro k hk
          simp only [applyEvent, handlePlatformSalePercentageUpdated, hload, htok0,
            reconcile_users, refreshGlobalState_users]
          exact hk)
        (Or.inr ⟨t0, { t0 with
            platformFirstSalePercentage := p1
            platformSecondSalePercentage := p2 }, htok0,
          by simp only [applyEvent, handlePlatformSalePercentageUpdated, hload, htok0,
            reconcile_tokens, refreshGlobalState_tokens],
          rfl, rfl, Or.inr rfl⟩)
      exact ⟨ha, hb⟩
  | permissionUpdated meta tid0 owner perm =>
    have hload : getOrInitialiseToken (getOrInitialiseGlobalState O s).1 tid0
        = s.tokens.load (natStr tid0) := getOrInitialiseToken_fst O s tid0
    cases htok0 : s.tokens.load (natStr tid0) with
    | none =>
      obtain ⟨ha, hb⟩ := saleInv_nonsale_step s
        ((applyEvent O (.permissionUpdated meta tid0 owner perm) s).1) tid0 hs
        (by simp only [applyEvent, handlePermissionUpdated, hload, htok0,
          getOrInitialiseGlobalState_fst_sales])
        (by
          intro k hk
          simp only [applyEvent, handlePermissionUpdated, hload, htok0,
            getOrInitialiseGlobalState_fst_users]
          exact hk)
        (Or.inl (by simp only [applyEvent, handlePermissionUpdated, hload, htok0,
          getOrInitialiseGlobalState_fst_tokens]))
      exact ⟨ha, hb⟩
    | some t0 =>
      by_cases hg : owner = t0.owner
      · obtain ⟨ha, hb⟩ := saleInv_nonsale_step s
          ((applyEvent O (.permissionUpdated meta tid0 owner perm) s).1) tid0 hs
          (by simp only [applyEvent, handlePermissionUpdated, hload, htok0, if_pos hg,
            reconcile_sales, getOrInitialiseGlobalState_fst_sales])
          (by
            intro k hk
            simp only [applyEvent, handlePermissionUpdated, hload, htok0, if_pos hg,
              reconcile_users, getOrInitialiseGlobalState_fst_users]
            exact hk)
          (Or.inr ⟨t0, { t0 with permissionedAddress := some perm }, htok0,
            by simp only [applyEvent, handlePermissionUpdated, hload, htok0, if_pos hg,
              reconcile_tokens, getOrInitialiseGlobalState_fst_tokens],
            rfl, rfl, Or.inr rfl⟩)
        exact ⟨ha, hb⟩
      · obtain ⟨ha, hb⟩ := saleInv_nonsale_step s
          ((applyEvent O (.permissionUpdated meta tid0 owner perm) s).1) tid0 hs
          (by simp only [applyEvent, handlePermissionUpdated, hload, htok0, if_neg hg,
            reconcile_sales, getOrInitialiseGlobalState_fst_sales])
          (by
            intro k hk
            simp only [applyEvent, handlePermissionUpdated, hload, htok0, if_neg hg,
              reconcile_users, getOrInitialiseGlobalState_fst_users]
            exact hk)
          (Or.inl (by simp only [applyEvent, handlePermissionUpdated, hload, htok0, if_neg hg,
            reconcile_tokens, getOrInitialiseGlobalState_fst_tokens]))
        exact ⟨ha, hb⟩
  | controlLeverUpdated meta tid0 tip rem lids pvs uvs =>
    have hload : getOrInitialiseToken (refreshGlobalState O s) tid0
        = s.tokens.load (natStr tid0) := getOrInitialiseToken_refresh O s tid0
    cases htok0 : s.tokens.load (natStr tid0) with
    | none =>
      obtain ⟨ha, hb⟩ := saleInv_nonsale_step s
        ((applyEvent O (.controlLeverUpdated meta tid0 tip rem lids pvs uvs) s).1) tid0 hs
        (by simp only [applyEvent, handleControlLeverUpdated, hload, htok0,
          refreshGlobalState_sales])
        (by
          intro k hk
          simp only [applyEvent, handleControlLeverUpdated, hload, htok0,
            refreshGlobalState_users]
          exact hk)
        (Or.inl (by simp only [applyEvent, handleControlLeverUpdated, hload, htok0,
          refreshGlobalState_tokens]))
      exact ⟨ha, hb⟩
    | some t0 =>
      cases hctl : s.controllers.load (controllerKey tid0) with
      | none =>
        obtain ⟨ha, hb⟩ := saleInv_nonsale_step s
          ((applyEvent O (.controlLeverUpdated meta tid0 tip rem lids pvs uvs) s).1) tid0 hs
          (by simp only [applyEvent, handleControlLeverUpdated, hload, htok0,
            refreshGlobalState_controllers, hctl, refreshGlobalState_sales])
          (by
            intro k hk
            simp only [applyEvent, handleControlLeverUpdated, hload, htok0,
              refreshGlobalState_controllers, hctl, refreshGlobalState_users]
            exact hk)
          (Or.inl (by simp only [applyEvent, handleControlLeverUpdated, hload, htok0,
            refreshGlobalState_controllers, hctl, refreshGlobalState_tokens]))
        exact ⟨ha, hb⟩
      | some ctl =>
        cases hap : applyLevers tid0 (layerUpdateKey tid0 (ctl.numberOfUpdates + 1))
            s.levers [] pvs lids uvs with
        | none =>
          obtain ⟨ha, hb⟩ := saleInv_nonsale_step s
            ((applyEvent O (.controlLeverUpdated meta tid0 tip rem lids pvs uvs) s).1) tid0 hs
            (by simp only [applyEvent, handleControlLeverUpdated, hload, htok0,
              refreshGlobalState_controllers, hctl, refreshGlobalState_levers, hap,
              refreshGlobalState_sales])
            (by
              intro k hk
              simp only [applyEvent, handleControlLeverUpdated, hload, htok0,
                refreshGlobalState_controllers, hctl, refreshGlobalState_levers, hap,
                refreshGlobalState_users]
              exact hk)
            (Or.inl (by simp only [applyEvent, handleControlLeverUpdated, hload, htok0,
              refreshGlobalState_controllers, hctl, refreshGlobalState_levers, hap,
              refreshGlobalState_tokens]))
          exact ⟨ha, hb⟩
        | some pr =>
          obtain ⟨levers1, upd⟩ := pr
          obtain ⟨ha, hb⟩ := saleInv_nonsale_step s
            ((applyEvent O (.controlLeverUpdated meta tid0 tip rem lids pvs uvs) s).1) tid0 hs
            (by simp only [applyEvent, handleControlLeverUpdated, hload, htok0,
              refreshGlobalState_controllers, hctl, refreshGlobalState_levers, hap,
              refreshGlobalState_sales])
            (by
              intro k hk
              simp only [applyEvent, handleControlLeverUpdated, hload, htok0,
                refreshGlobalState_controllers, hctl, refreshGlobalState_levers, hap,
                refreshGlobalState_users]
              exact hk)
            (Or.inr ⟨t0, t0, htok0,
              by simp only [applyEvent, handleControlLeverUpdated, hload, htok0,
                refreshGlobalState_controllers, hctl, refreshGlobalState_levers, hap,
                refreshGlobalState_tokens],
              rfl, rfl, Or.inr rfl⟩)
          exact ⟨ha, hb⟩
  | transfer meta tid0 fromAddr toAddr =>
    have hload : getOrInitialiseToken ((createOrFetchUserString toAddr
        (refreshGlobalState O s)).1) tid0 = s.tokens.load (natStr tid0) := by
      unfold getOrInitialiseToken
      rw [createOrFetchUserString_tokens, refreshGlobalState_tokens]
    cases htok0 : s.tokens.load (natStr tid0) with
    | none =>
      obtain ⟨ha, hb⟩ := saleInv_nonsale_step s
        ((applyEvent O (.transfer meta tid0 fromAddr toAddr) s).1) tid0 hs
        (by simp only [applyEvent, handleTransfer, hload, htok0,
          createOrFetchUserString_sales, refreshGlobalState_sales])
        (by
          intro k hk
          simp only [applyEvent, handleTransfer, hload, htok0]
          apply createOrFetchUserString_users_isSome
          apply createOrFetchUserString_users_isSome
          rw [refreshGlobalState_users]
          exact hk)
        (Or.inl (by simp only [applyEvent, handleTransfer, hload, htok0,
          createOrFetchUserString_tokens, refreshGlobalState_tokens]))
      exact ⟨ha, hb⟩
    | some t0 =>
      have howner : (((applyEvent O (.transfer meta tid0 fromAddr toAddr) s).1).users.load
          ((createOrFetchUserString toAddr (refreshGlobalState O s)).2.id)).isSome = true := by
        by_cases hm : t0.isMaster = true
        · simp only [applyEvent, handleTransfer, hload, htok0, reconcile_users, if_pos hm]
          apply Store.load_isSome_save
          rw [Store.load_save_self]
          rfl
        · simp only [applyEvent, handleTransfer, hload, htok0, reconcile_users, if_neg hm]
          apply Store.load_isSome_save
          rw [Store.load_save_self]
          rfl
      have htk : ((applyEvent O (.transfer meta tid0 fromAddr toAddr) s).1).tokens
          = s.tokens.save t0.id
            ({ t0 with
              permissionedAddress := getPermissionedAddress O tid0 toAddr
              owner := (createOrFetchUserString toAddr (refreshGlobalState O s)).2.id
              currentBuyPrice := 0
              lastTransfer := some (transferKey tid0 meta.txHash)
              allTransfers := t0.allTransfers ++ [transferKey tid0 meta.txHash]
              pastOwners :=
                if (createOrFetchUserString fromAddr ((createOrFetchUserString toAddr
                    (refreshGlobalState O s)).1)).2.id ∈ t0.pastOwners
                then t0.pastOwners
                else t0.pastOwners ++ [(createOrFetchUserString fromAddr
                  ((createOrFetchUserString toAddr (refreshGlobalState O s)).1)).2.id] }) := by
        simp only [applyEvent, handleTransfer, hload, htok0, reconcile_tokens,
          createOrFetchUserString_tokens, refreshGlobalState_tokens]
      obtain ⟨ha, hb⟩ := saleInv_nonsale_step s
        ((applyEvent O (.transfer meta tid0 fromAddr toAddr) s).1) tid0 hs
        (by simp only [applyEvent, handleTransfer, hload, htok0, reconcile_sales,
          createOrFetchUserString_sales, refreshGlobalState_sales])
        (by
          intro k hk
          simp only [applyEvent, handleTransfer, hload, htok0, reconcile_users]
          apply Store.load_isSome_save
          apply Store.load_isSome_save
          apply createOrFetchUserString_users_isSome
          apply createOrFetchUserString_users_isSome
          rw [refreshGlobalState_users]
          exact hk)
        (Or.inr ⟨t0, _, htok0, htk, rfl, rfl, Or.inl howner⟩)
      exact ⟨ha, hb⟩
  | tokenSale meta tid0 price buyer =>
    obtain ⟨ha, hb⟩ := saleInv_sale_step O meta tid0 price buyer s hs
    refine ⟨ha, fun tid t htok => ?_⟩
    obtain ⟨t2, hx, hy⟩ := hb tid t htok
    refine ⟨t2, hx, ?_⟩
    rw [hy, saleEventsFor_single_sale]

theorem saleInv_after_creation (O : Source) (meta : EventMeta) (M N : Nat) (creator : String) :
    SaleStoresOk (applyEvent O (.creatorWhitelisted meta M N creator) State.init).1 := by
  constructor
  · intro tid t htok
    obtain ⟨ha, hb, hc⟩ := creation_tokens_chr O meta M N creator (natStr tid) t htok
    refine ⟨ha, by rw [hc]; exact creation_creator_user O meta M N creator, ?_⟩
    rw [hb]
    show saleNumbersFor _ tid = []
    unfold saleNumbersFor salesFor
    rw [creation_sales_empty]
    rfl
  · intro k sale hk
    rw [creation_sales_empty] at hk
    cases hk

theorem saleInv_run (O : Source) (events : List Event) :
    ∀ s : State, SaleStoresOk s → (∀ e ∈ events, e.isCreation = false) →
    SaleStoresOk (applyEvents O s events) ∧
    ∀ tid t, s.tokens.load (natStr tid) = some t →
      ∃ t2, (applyEvents O s events).tokens.load (natStr tid) = some t2 ∧
        t2.numberOfSales = t.numberOfSales + saleEventsFor tid events := by
  induction events with
  | nil =>
    intro s hs _
    exact ⟨hs, fun tid t htok => ⟨t, htok, rfl⟩⟩
  | cons e rest ih =>
    intro s hs hevs
    have hne : e.isCreation = false := hevs e (List.mem_cons_self e rest)
    obtain ⟨hs1, hcnt1⟩ := saleInv_step O e s hs hne
    obtain ⟨hs2, hcnt2⟩ :=
      ih ((applyEvent O e s).1) hs1 (fun e2 he2 => hevs e2 (List.mem_cons_of_mem e he2))
    have happ : applyEvents O s (e :: rest) = applyEvents O ((applyEvent O e s).1) rest := rfl
    refine ⟨by rw [happ]; exact hs2, ?_⟩
    intro tid t htok
    obtain ⟨t1, h1a, h1b⟩ := hcnt1 tid t htok
    obtain ⟨t2, h2a, h2b⟩ := hcnt2 tid t1 h1a
    refine ⟨t2, by rw [happ]; exact h2a, ?_⟩
    rw [h2b, h1b]
    have hsplit : saleEventsFor tid (e :: rest)
        = saleEventsFor tid [e] + saleEventsFor tid rest := by
      unfold saleEventsFor
      rw [List.countP_cons, List.countP_cons, List.countP_nil]
      omega
    rw [hsplit]
    omega

theorem creation_tokens_load (O : Source) (meta : EventMeta) (M N : Nat) (creator : String)
    (tid : Nat) (h1 : M ≤ tid) (h2 : tid ≤ M + N) :
    ((applyEvent O (.creatorWhitelisted meta M N creator) State.init).1.tokens.load
      (natStr tid)).isSome = true := by
  rw [handleCreatorWhitelisted_eq]
  unfold createTokensFromMasterTokenId
  by_cases hm : tid = M
  · subst hm
    rw [createChildren_tokens_other]
    · simp only [Store.load_save_self]
      rfl
    · intro i hi1 hi2
      exact natStr_inj_ne (by omega)
  · obtain ⟨i, rfl, hi1, hi2⟩ : ∃ i, tid = M + i ∧ 1 ≤ i ∧ i ≤ N :=
      ⟨tid - M, by omega, by omega, by omega⟩
    rw [createChildren_tokens_in O creator M N _ i hi1 hi2]
    rfl

/-- Claim C4: after a creation event covering token `tid` and any further
sequence of non-creation events, the token's Sale records carry
tokenSaleNumber values exactly `1..K` where `K` is the number of sale events
applied to that token — stored newest-first as `K, K-1, ..., 1`, hence
strictly increasing in creation order with no gaps and no reuse — each Sale is
keyed (and carries as its id) the token id joined with its number,
`Token.numberOfSales` equals `K`, and after every event prefix the token's
numberOfSales equals the count of its Sale records. -/
theorem sale_numbering_gapfree (O : Source) (cmeta : EventMeta) (M N : Nat)
    (creator : String) (events : List Event) (s' : State)
    (hs : s' = applyEvents O
      (applyEvent O (.creatorWhitelisted cmeta M N creator) State.init).1 events)
    (hevs : ∀ e ∈ events, e.isCreation = false)
    (tid : Nat) (h1 : M ≤ tid) (h2 : tid ≤ M + N) :
    ∃ t, s'.tokens.load (natStr tid) = some t ∧
      t.numberOfSales = saleEventsFor tid events ∧
      saleNumbersFor s' tid = countdown (saleEventsFor tid events) ∧
      (saleNumbersFor s' tid).reverse = List.range' 1 (saleEventsFor tid events) ∧
      countSalesFor s' tid = saleEventsFor tid events ∧
      (∀ k sale, s'.sales.load k = some sale → sale.tokenDetails = natStr tid →
        k = saleKey tid sale.tokenSaleNumber ∧ sale.id = k ∧
        1 ≤ sale.tokenSaleNumber ∧ sale.tokenSaleNumber ≤ saleEventsFor tid events) ∧
      (∀ i, ∃ ti,
        (applyEvents O (applyEvent O (.creatorWhitelisted cmeta M N creator) State.init).1
            (events.take i)).tokens.load (natStr tid) = some ti ∧
        ti.numberOfSales = saleEventsFor tid (events.take i) ∧
        countSalesFor (applyEvents O
            (applyEvent O (.creatorWhitelisted cmeta M N creator) State.init).1
            (events.take i)) tid = saleEventsFor tid (events.take i)) := by
  subst hs
  have hinv := saleInv_after_creation O cmeta M N creator
  have hload0 := creation_tokens_load O cmeta M N creator tid h1 h2
  cases h0 : (applyEvent O (.creatorWhitelisted cmeta M N creator) State.init).1.tokens.load
      (natStr tid) with
  | none =>
    rw [h0] at hload0
    exact absurd hload0 (by simp)
  | some t00 =>
    obtain ⟨-, hnum00, -⟩ := creation_tokens_chr O cmeta M N creator (natStr tid) t00 h0
    obtain ⟨hs', hcnt⟩ := saleInv_run O events _ hinv hevs
    obtain ⟨t2, hload2, hnum2⟩ := hcnt tid t00 h0
    have hK : t2.numberOfSales = saleEventsFor tid events := by
      rw [hnum2, hnum00]
      omega
    obtain ⟨hinv1, hinv2⟩ := hs'
    obtain ⟨-, -, hnums⟩ := hinv1 tid t2 hload2
    refine ⟨t2, hload2, hK, ?_, ?_, ?_, ?_, ?_⟩
    · rw [hnums, hK]
    · rw [hnums, hK, countdown_reverse]
    · have hlen : countSalesFor (applyEvents O
          (applyEvent O (.creatorWhitelisted cmeta M N creator) State.init).1 events) tid
          = (saleNumbersFor (applyEvents O
            (applyEvent O (.creatorWhitelisted cmeta M N creator) State.init).1 events)
            tid).length := by
        unfold countSalesFor saleNumbersFor
        rw [List.length_map]
      rw [hlen, hnums, hK, countdown_length]
    · intro k sale hk hdet
      obtain ⟨tidx, tx, hta, htb, htc, htd, hte, htf⟩ := hinv2 k sale hk
      have hee : natStr tidx = natStr tid := by rw [← htb, hdet]
      have hx : tidx = tid := natStr_inj hee
      subst hx
      rw [hload2] at hta
      cases hta
      exact ⟨htc, htd, hte, by rw [← hK]; exact htf⟩
    · intro i
      obtain ⟨hsi, hcnti⟩ := saleInv_run O (events.take i) _ hinv
        (fun e he => hevs e (List.take_subset i events he))
      obtain ⟨ti, hli, hni⟩ := hcnti tid t00 h0
      obtain ⟨-, -, hnumsi⟩ := hsi.1 tid ti hli
      have hKi : ti.numberOfSales = saleEventsFor tid (events.take i) := by
        rw [hni, hnum00]
        omega
      refine ⟨ti, hli, hKi, ?_⟩
      have hlen : countSalesFor (applyEvents O
          (applyEvent O (.creatorWhitelisted cmeta M N creator) State.init).1
          (events.take i)) tid
          = (saleNumbersFor (applyEvents O
            (applyEvent O (.creatorWhitelisted cmeta M N creator) State.init).1
            (events.take i)) tid).length := by
        unfold countSalesFor saleNumbersFor
        rw [List.length_map]
      rw [hlen, hnumsi, hKi, countdown_length]

/-- Witness for C4: creating master token 0 with one child and applying two
sale events to token 0 yields numberOfSales = 2 with sale numbers stored as
[2, 1], i.e. exactly 1..2 gap-free. -/
theorem sale_numbering_gapfree_witness :
    ∃ t, (applyEvents oracle0
        (applyEvent oracle0 (.creatorWhitelisted (meta0 "0xc") 0 1 "0xa") State.init).1
        [.tokenSale (meta0 "0xs1") 0 100 "0xb",
         .tokenSale (meta0 "0xs2") 0 120 "0xd"]).tokens.load (natStr 0) = some t ∧
      t.numberOfSales = 2 ∧
      saleNumbersFor (applyEvents oracle0
        (applyEvent oracle0 (.creatorWhitelisted (meta0 "0xc") 0 1 "0xa") State.init).1
        [.tokenSale (meta0 "0xs1") 0 100 "0xb",
         .tokenSale (meta0 "0xs2") 0 120 "0xd"]) 0 = [2, 1] := by
  obtain ⟨t, hl, hn, hcd, -, -, -, -⟩ := sale_numbering_gapfree oracle0 (meta0 "0xc") 0 1 "0xa"
    [.tokenSale (meta0 "0xs1") 0 100 "0xb", .tokenSale (meta0 "0xs2") 0 120 "0xd"] _ rfl
    (by decide) 0 (by decide) (by decide)
  refine ⟨t, hl, ?_, ?_⟩
  · rw [hn]
    decide
  · rw [hcd]
    decide

end AsyncArt
